import Mathlib

/-!
Verification of the datasaver backup lifecycle subsystem.

Shallow embedding of the Go sources:
  * `internal/rotation` (GFS retention policy and rotator),
  * `internal/backup` (integrity validator and retry wrapper),
  * `pkg/postgres/metadata.go` (checksum and backup-id helpers).

Modelling conventions:
  * Go `int` / `int64` are modelled as `Int`.
  * A `time.Time` carried by a backup record is modelled by its Unix
    timestamp in whole seconds (`Int`); all records in this system are
    produced via `time.Now().UTC()`, so civil-calendar queries
    (`Weekday`, `Day`) are computed with a zero zone offset.  For
    `GenerateBackupID`, where the zone offset of the argument matters,
    a `GoTime` structure with an explicit offset is used.
  * Effectful interfaces (the storage backend, the fallible operation
    retried by `WithRetry`, the cancellation context) are modelled as
    explicit oracles, and the operations a function performs are
    returned as an explicit trace so that "performs no storage I/O"
    style statements are expressible.
-/

/-! ## Civil calendar on Unix seconds

Go's `time` package computes `Weekday()` and `Day()` from the wall
clock of the instant in its location.  For an instant given as Unix
seconds, the days-since-epoch / civil-date conversion below is the
standard proleptic-Gregorian algorithm, which agrees with Go's. -/

/-- Days since 1970-01-01 of the instant `t` (Unix seconds), floor division. -/
def daysFromSec (t : Int) : Int := t.ediv 86400

/-- Seconds elapsed since local midnight. -/
def secondOfDay (t : Int) : Int := t.emod 86400

/-- Go weekday numbering (`time.Sunday = 0`): 1970-01-01 was a Thursday (4). -/
def weekdayOfSec (t : Int) : Int := (daysFromSec t + 4).emod 7

/-- Civil date `(year, month, day)` of a days-since-epoch count
(proleptic Gregorian calendar). -/
def civilFromDays (z0 : Int) : Int × Int × Int :=
  let z := z0 + 719468
  let era := z.ediv 146097
  let doe := z - era * 146097
  let yoe := (doe - doe.ediv 1460 + doe.ediv 36524 - doe.ediv 146096).ediv 365
  let doy := doe - (365 * yoe + yoe.ediv 4 - yoe.ediv 100)
  let mp := (5 * doy + 2).ediv 153
  let d := doy - (153 * mp + 2).ediv 5 + 1
  let m := mp + (if mp < 10 then 3 else -9)
  let y := yoe + era * 400
  (y + (if m ≤ 2 then 1 else 0), m, d)

/-- Day of the month (1..31) of the instant `t`, as Go's `t.Day()`. -/
def dayOfMonthOfSec (t : Int) : Int := (civilFromDays (daysFromSec t)).2.2

/-- Month (1..12) of the instant `t`, as Go's `t.Month()`. -/
def monthOfSec (t : Int) : Int := (civilFromDays (daysFromSec t)).2.1

/-- Year of the instant `t`, as Go's `t.Year()`. -/
def yearOfSec (t : Int) : Int := (civilFromDays (daysFromSec t)).1

-- Sanity checks against dates used in the repository's own tests.
-- 2024-01-14T12:00:00Z (a Sunday), 2024-01-15T12:00:00Z (a Monday),
-- 2024-02-01T12:00:00Z (February 1st), 2024-09-01T12:00:00Z (Sunday, Sep 1).
theorem weekday_sunday_jan14 : weekdayOfSec 1705233600 = 0 := by decide
theorem weekday_monday_jan15 : weekdayOfSec 1705320000 = 1 := by decide
theorem day_jan14 : dayOfMonthOfSec 1705233600 = 14 := by decide
theorem day_feb1 : dayOfMonthOfSec 1706788800 = 1 := by decide
theorem sunday_sep1 : weekdayOfSec 1725192000 = 0 ∧ dayOfMonthOfSec 1725192000 = 1 := by decide

/-! ## `internal/rotation`: policy and classification (`policy.go`) -/

/-- `rotation.Policy`. -/
structure Policy where
  KeepDaily : Int
  KeepWeekly : Int
  KeepMonthly : Int
  MaxAgeDays : Int
deriving DecidableEq, Repr

/-- `rotation.BackupType`. -/
inductive BackupType where
  | daily
  | weekly
  | monthly
deriving DecidableEq, Repr

/-- `rotation.ClassifyBackup`: every backup is daily; additionally weekly if
its weekday is Sunday; additionally monthly if it is the first of a month. -/
def ClassifyBackup (t : Int) : List BackupType :=
  let types := [BackupType.daily]
  let types := if weekdayOfSec t = 0 then types ++ [BackupType.weekly] else types
  let types := if dayOfMonthOfSec t = 1 then types ++ [BackupType.monthly] else types
  types

/-- `rotation.GetPrimaryType`: monthly over weekly over daily. -/
def GetPrimaryType (t : Int) : BackupType :=
  if dayOfMonthOfSec t = 1 then BackupType.monthly
  else if weekdayOfSec t = 0 then BackupType.weekly
  else BackupType.daily

/-! ## `pkg/postgres/metadata.go`: the metadata record (fields used by the
rotator and the validator; fields not consulted by any verified function —
`Type`, `Database`, `Retention`, and the unused members of `BackupInfo` —
are omitted). -/

/-- `postgres.BackupInfo` (the fields read by `Validator.Validate`). -/
structure BackupInfo where
  CompressedSize : Int
  Checksum : String
deriving DecidableEq, Repr

/-- `postgres.BackupMetadata` (the fields read by the rotator and validator).
`Timestamp` is the Unix-seconds instant (records are created with
`time.Now().UTC()`). -/
structure BackupMetadata where
  ID : String
  Timestamp : Int
  Backup : BackupInfo
  Files : List String
deriving DecidableEq, Repr

/-! ## `internal/rotation/gfs.go`: the GFS rotator -/

/-- `rotation.GFSRotator`. -/
structure GFSRotator where
  policy : Policy

/-- The mutable state of the keep-walk in `DetermineBackupsToDelete`:
the three tier counters and the `keep` set (a `map[string]bool` in Go;
only membership of an ID matters, so a list of inserted IDs). -/
structure WalkState where
  dailyCount : Int
  weeklyCount : Int
  monthlyCount : Int
  keep : List String
deriving DecidableEq, Repr

/-- One iteration of the `for _, t := range entry.Types` switch in
`DetermineBackupsToDelete`: each tier's counter is advanced while below
its quota, and the record is flagged kept if any tier accepted it. -/
def tierStep (p : Policy) (acc : WalkState × Bool) (t : BackupType) : WalkState × Bool :=
  match t with
  | BackupType.monthly =>
    if acc.1.monthlyCount < p.KeepMonthly then
      ({ acc.1 with monthlyCount := acc.1.monthlyCount + 1 }, true)
    else acc
  | BackupType.weekly =>
    if acc.1.weeklyCount < p.KeepWeekly then
      ({ acc.1 with weeklyCount := acc.1.weeklyCount + 1 }, true)
    else acc
  | BackupType.daily =>
    if acc.1.dailyCount < p.KeepDaily then
      ({ acc.1 with dailyCount := acc.1.dailyCount + 1 }, true)
    else acc

/-- One loop body of the keep-walk: fold the record's classification tags
through `tierStep` starting from `shouldKeep = false`, then add the
record's ID to `keep` if some tier accepted it. -/
def recordStep (p : Policy) (st : WalkState) (b : BackupMetadata) : WalkState :=
  let r := (ClassifyBackup b.Timestamp).foldl (tierStep p) (st, false)
  if r.2 then { r.1 with keep := r.1.keep ++ [b.ID] } else r.1

/-- The newest-to-oldest walk of `DetermineBackupsToDelete` marking records
kept. -/
def keepWalk (p : Policy) : List BackupMetadata → WalkState → WalkState
  | [], st => st
  | b :: rest, st => keepWalk p rest (recordStep p st b)

/-- Whether the max-age rule fires for a record: `MaxAgeDays > 0` and the
record's age exceeds `MaxAgeDays` days (`now` and timestamps in seconds). -/
def overMaxAge (p : Policy) (now ts : Int) : Prop :=
  p.MaxAgeDays > 0 ∧ now - ts > p.MaxAgeDays * 86400

instance (p : Policy) (now ts : Int) : Decidable (overMaxAge p now ts) := by
  unfold overMaxAge; infer_instance

/-- The final loop of `DetermineBackupsToDelete`: a record not marked kept is
deleted; a kept record is additionally deleted when the max-age rule fires. -/
def deleteLoop (p : Policy) (now : Int) (keepIds : List String) :
    List BackupMetadata → List BackupMetadata
  | [] => []
  | b :: rest =>
    if b.ID ∈ keepIds then
      if overMaxAge p now b.Timestamp then b :: deleteLoop p now keepIds rest
      else deleteLoop p now keepIds rest
    else b :: deleteLoop p now keepIds rest

/-- Timestamp-descending order used by the `sort.Slice` call in
`DetermineBackupsToDelete` (`backups[i].Timestamp.After(backups[j].Timestamp)`). -/
def tsDescend (a b : BackupMetadata) : Prop := b.Timestamp ≤ a.Timestamp

instance : DecidableRel tsDescend := by
  unfold tsDescend; infer_instance

instance : IsTotal BackupMetadata tsDescend :=
  ⟨fun a b => Int.le_total b.Timestamp a.Timestamp⟩

instance : IsTrans BackupMetadata tsDescend :=
  ⟨fun _ _ _ h h' => Int.le_trans h' h⟩

/-- Newest-first sort of the records.  Go's `sort.Slice` is an arbitrary
(unstable) comparison sort, so its output on ties is unspecified; an
insertion sort is an adequate model and agrees with it exactly whenever
the timestamps are pairwise distinct, which every claim below assumes. -/
def sortNewestFirst (backups : List BackupMetadata) : List BackupMetadata :=
  backups.insertionSort tsDescend

/-- `GFSRotator.DetermineBackupsToDelete`.  The Go method reads the clock
(`time.Now()`); the embedding takes that instant as the explicit
parameter `now`.  Records are sorted newest first and walked with the
three tier counters; the result is the list of records to delete. -/
def GFSRotator.DetermineBackupsToDelete (g : GFSRotator) (now : Int)
    (backups : List BackupMetadata) : List BackupMetadata :=
  if backups.length = 0 then []
  else
    let sorted := sortNewestFirst backups
    let st := keepWalk g.policy sorted ⟨0, 0, 0, []⟩
    deleteLoop g.policy now st.keep sorted

-- Sanity: shape of the repository test `TestGFSRotator_DetermineBackupsToDelete`
-- (keep the 2 newest of 3 weekday-only records, delete the oldest).
theorem determine_keepDaily2_sanity :
    (GFSRotator.DetermineBackupsToDelete ⟨⟨2, 0, 0, 0⟩⟩ 1705600000
      [⟨"b1", 1705320000, ⟨0, ""⟩, []⟩, ⟨"b2", 1705406400, ⟨0, ""⟩, []⟩,
       ⟨"b3", 1705233600 - 86400 * 3, ⟨0, ""⟩, []⟩]).map BackupMetadata.ID
    = ["b3"] := by decide

/-! ## SHA-256 (`crypto/sha256` as used by `postgres.CalculateChecksum`)

FIPS 180-4 SHA-256 over a byte list, with 32-bit words as `Nat` reduced
mod `2 ^ 32`.  `CalculateChecksum` opens the file, streams it into the
hash and renders `"sha256:" ++ <lowercase hex digest>`; the embedding
takes the file's content directly. -/

/-- Truncate to a 32-bit word. -/
def w32 (n : Nat) : Nat := n % 4294967296

/-- 32-bit rotate right. -/
def rotr32 (k x : Nat) : Nat := w32 ((x >>> k) ||| (x <<< (32 - k)))

def bigSigma0 (x : Nat) : Nat := rotr32 2 x ^^^ rotr32 13 x ^^^ rotr32 22 x

def bigSigma1 (x : Nat) : Nat := rotr32 6 x ^^^ rotr32 11 x ^^^ rotr32 25 x

def smallSigma0 (x : Nat) : Nat := rotr32 7 x ^^^ rotr32 18 x ^^^ (x >>> 3)

def smallSigma1 (x : Nat) : Nat := rotr32 17 x ^^^ rotr32 19 x ^^^ (x >>> 10)

def chFn (x y z : Nat) : Nat := (x &&& y) ^^^ ((x ^^^ 4294967295) &&& z)

def majFn (x y z : Nat) : Nat := (x &&& y) ^^^ (x &&& z) ^^^ (y &&& z)

/-- The 64 SHA-256 round constants. -/
def k256 : List Nat :=
  [1116352408, 1899447441, 3049323471, 3921009573, 961987163, 1508970993,
   2453635748, 2870763221, 3624381080, 310598401, 607225278, 1426881987,
   1925078388, 2162078206, 2614888103, 3248222580, 3835390401, 4022224774,
   264347078, 604807628, 770255983, 1249150122, 1555081692, 1996064986,
   2554220882, 2821834349, 2952996808, 3210313671, 3336571891, 3584528711,
   113926993, 338241895, 666307205, 773529912, 1294757372, 1396182291,
   1695183700, 1986661051, 2177026350, 2456956037, 2730485921, 2820302411,
   3259730800, 3345764771, 3516065817, 3600352804, 4094571909, 275423344,
   430227734, 506948616, 659060556, 883997877, 958139571, 1322822218,
   1537002063, 1747873779, 1955562222, 2024104815, 2227730452, 2361852424,
   2428436474, 2756734187, 3204031479, 3329325298]

/-- `n` bytes of `v`, big-endian. -/
def beBytes : Nat → Nat → List Nat
  | 0, _ => []
  | k + 1, v => beBytes k (v / 256) ++ [v % 256]

/-- Big-endian 32-bit words of a byte list (length a multiple of 4). -/
def bytesToWords : List Nat → List Nat
  | b0 :: b1 :: b2 :: b3 :: rest => (((b0 * 256 + b1) * 256 + b2) * 256 + b3) :: bytesToWords rest
  | _ => []

/-- SHA-256 padding: `0x80`, zeros, and the bit length as 8 big-endian bytes. -/
def sha256Pad (msg : List Nat) : List Nat :=
  let zeros := (64 - (msg.length + 9) % 64) % 64
  msg ++ [128] ++ List.replicate zeros 0 ++ beBytes 8 (msg.length * 8)

/-- The eight 32-bit hash words. -/
structure Hash8 where
  a : Nat
  b : Nat
  c : Nat
  d : Nat
  e : Nat
  f : Nat
  g : Nat
  h : Nat
deriving DecidableEq, Repr

/-- SHA-256 initial hash value. -/
def sha256Init : Hash8 :=
  ⟨1779033703, 3144134277, 1013904242, 2773480762, 1359893119, 2600822924, 528734635, 1541459225⟩

/-- Extend the 16-word message schedule by `n` further words. -/
def extendSchedule : Nat → List Nat → List Nat
  | 0, w => w
  | n + 1, w =>
    let x := w32 (smallSigma1 (w.getD (w.length - 2) 0) + w.getD (w.length - 7) 0 +
                  smallSigma0 (w.getD (w.length - 15) 0) + w.getD (w.length - 16) 0)
    extendSchedule n (w ++ [x])

/-- One SHA-256 round, consuming a schedule word paired with its constant. -/
def compressStep (st : Hash8) (wk : Nat × Nat) : Hash8 :=
  let t1 := w32 (st.h + bigSigma1 st.e + chFn st.e st.f st.g + wk.2 + wk.1)
  let t2 := w32 (bigSigma0 st.a + majFn st.a st.b st.c)
  ⟨w32 (t1 + t2), st.a, st.b, st.c, w32 (st.d + t1), st.e, st.f, st.g⟩

/-- Process one 64-byte block. -/
def processBlock (h0 : Hash8) (block : List Nat) : Hash8 :=
  let w := extendSchedule 48 (bytesToWords block)
  let st := (w.zip k256).foldl compressStep h0
  ⟨w32 (h0.a + st.a), w32 (h0.b + st.b), w32 (h0.c + st.c), w32 (h0.d + st.d),
   w32 (h0.e + st.e), w32 (h0.f + st.f), w32 (h0.g + st.g), w32 (h0.h + st.h)⟩

/-- Process `n` consecutive 64-byte blocks of `l`. -/
def processBlocks (h : Hash8) (l : List Nat) : Nat → Hash8
  | 0 => h
  | n + 1 => processBlocks (processBlock h (l.take 64)) (l.drop 64) n

/-- SHA-256 digest (32 bytes) of a byte list. -/
def sha256 (msg : List Nat) : List Nat :=
  let padded := sha256Pad msg
  let st := processBlocks sha256Init padded (padded.length / 64)
  beBytes 4 st.a ++ beBytes 4 st.b ++ beBytes 4 st.c ++ beBytes 4 st.d ++
  beBytes 4 st.e ++ beBytes 4 st.f ++ beBytes 4 st.g ++ beBytes 4 st.h

/-- Lowercase hex digit, as `encoding/hex`. -/
def hexDigitChar (n : Nat) : Char := ("0123456789abcdef".data).getD n '0'

/-- Lowercase hex encoding of a byte list (`hex.EncodeToString`). -/
def bytesToHex (bytes : List Nat) : String :=
  String.mk ((bytes.map (fun b => [hexDigitChar (b / 16), hexDigitChar (b % 16)])).flatten)

/-- `postgres.CalculateChecksum`: SHA-256 of the file's content, rendered
as `"sha256:" ++ <lowercase hex>`.  The embedding takes the content. -/
def CalculateChecksum (content : List Nat) : String :=
  "sha256:" ++ bytesToHex (sha256 content)

-- FIPS 180-4 test vector: SHA-256("abc").
set_option maxRecDepth 100000 in
theorem sha256_abc :
    CalculateChecksum [97, 98, 99] =
      "sha256:ba7816bf8f01cfea414140de5dae2223b00361a396177a9cb410ff61f20015ad" := by decide

/-! ## `pkg/postgres/metadata.go`: `GenerateBackupID`

`GenerateBackupID(t)` is `fmt.Sprintf("backup_%s", t.Format("20060102_150405"))`.
Go's `Format` renders the wall clock of the instant in the time value's
own location, so the zone offset of the argument matters here and a
`time.Time` is modelled with its offset explicit. -/

/-- A Go `time.Time`: an absolute instant (Unix seconds plus a sub-second
nanosecond part) together with the zone offset of its location in seconds
(`0` for a value produced by `.UTC()`). -/
structure GoTime where
  sec : Int
  nsec : Int
  offset : Int
deriving DecidableEq, Repr

/-- Left-pad with `'0'` to width `w` (Go layout-number padding). -/
def zeroPad (w : Nat) (s : String) : String :=
  String.mk (List.replicate (w - s.length) '0') ++ s

def pad2 (n : Int) : String := zeroPad 2 (toString n)

def pad4 (n : Int) : String := zeroPad 4 (toString n)

/-- The `"20060102_150405"` layout applied to a wall clock given in
seconds: `YYYYMMDD_HHMMSS`. -/
def formatYmdHms (wall : Int) : String :=
  let c := civilFromDays (wall.ediv 86400)
  let s := wall.emod 86400
  pad4 c.1 ++ pad2 c.2.1 ++ pad2 c.2.2 ++ "_" ++
    pad2 (s.ediv 3600) ++ pad2 ((s.ediv 60).emod 60) ++ pad2 (s.emod 60)

/-- `postgres.GenerateBackupID`: formats the timestamp's wall clock
(instant shifted by the location's offset) in the `20060102_150405`
layout; the nanosecond part does not appear in the layout. -/
def GenerateBackupID (t : GoTime) : String :=
  "backup_" ++ formatYmdHms (t.sec + t.offset)

/-- Modelled from the spec: the id the spec describes, `"backup_"` followed
by the timestamp's *UTC* date and time as `YYYYMMDD_HHMMSS` — i.e. the
wall clock at offset zero, ignoring the value's own location. -/
def specUTCBackupID (t : GoTime) : String :=
  "backup_" ++ formatYmdHms t.sec

-- Sanity: the repository's own test `TestGenerateBackupID`
-- (2024-01-15T14:30:45Z ↦ "backup_20240115_143045").
theorem generateBackupID_testVector :
    GenerateBackupID ⟨1705329045, 0, 0⟩ = "backup_20240115_143045" := by decide

/-! ## `internal/backup/validator.go`: the integrity validator

The storage backend (`storage.Backend`) is modelled as three oracles
whose answers are fixed up front; Go `error` values become `String`.
`Validate` returns, alongside the Go results `(*ValidationResult, error)`,
the trace of storage calls it performed, so that claims about which
checks ran are expressible. -/

/-- A storage-backend call performed by the validator. -/
inductive StorageOp where
  | existsCheck (path : String)
  | sizeCheck (path : String)
  | readFile (path : String)
deriving DecidableEq, Repr

/-- The part of `storage.Backend` consulted by `Validator.Validate`. -/
structure Backend where
  ExistsQ : String → Except String Bool
  Size : String → Except String Int
  Read : String → Except String (List Nat)

/-- `backup.ValidationResult`. -/
structure ValidationResult where
  BackupID : String
  Valid : Bool
  FileExists : Bool
  SizeMatch : Bool
  ChecksumOK : Bool
  Errors : List String
deriving DecidableEq, Repr

/-- The `for _, f := range metadata.Files` loop of `Validate`: the first
entry different from the metadata key (`""` if none — note that a literal
`""` entry also yields `""` and is thus treated as "not found"). -/
def findDataFile (metaName : String) : List String → String
  | [] => ""
  | f :: rest => if f ≠ metaName then f else findDataFile metaName rest

/-- `Validator.Validate`.  Returns the Go result (`error` short-circuits
become `Except.error`) together with the trace of storage operations
performed.  The `createTempFile` + `CalculateChecksum` sequence reduces
to hashing the bytes read from storage; the temp file cannot fail in the
model, so the logged-and-skipped checksum-error branch is unreachable. -/
def Validate (v : Backend) (m : BackupMetadata) :
    Except String ValidationResult × List StorageOp :=
  let result : ValidationResult := ⟨m.ID, true, false, false, false, []⟩
  if m.Files.length = 0 then
    (Except.ok { result with Valid := false, Errors := result.Errors ++ ["no files listed in metadata"] }, [])
  else
    let backupFile := findDataFile (m.ID ++ ".meta.json") m.Files
    if backupFile = "" then
      (Except.ok { result with Valid := false, Errors := result.Errors ++ ["backup file not found in metadata"] }, [])
    else
      match v.ExistsQ backupFile with
      | Except.error e =>
        (Except.error ("failed to check file existence: " ++ e), [StorageOp.existsCheck backupFile])
      | Except.ok fileEx =>
        let result := { result with FileExists := fileEx }
        if !fileEx then
          (Except.ok { result with Valid := false, Errors := result.Errors ++ ["backup file does not exist"] }, [StorageOp.existsCheck backupFile])
        else
          match v.Size backupFile with
          | Except.error e =>
            (Except.error ("failed to get file size: " ++ e), [StorageOp.existsCheck backupFile, StorageOp.sizeCheck backupFile])
          | Except.ok size =>
            let sizeMatch := decide (size = m.Backup.CompressedSize)
            let result := { result with SizeMatch := sizeMatch }
            let sizeErr := "size mismatch: expected " ++ toString m.Backup.CompressedSize ++ ", got " ++ toString size
            let result := if !sizeMatch then { result with Valid := false, Errors := result.Errors ++ [sizeErr] } else result
            if m.Backup.Checksum ≠ "" then
              match v.Read backupFile with
              | Except.error e =>
                (Except.error ("failed to read backup file: " ++ e), [StorageOp.existsCheck backupFile, StorageOp.sizeCheck backupFile, StorageOp.readFile backupFile])
              | Except.ok data =>
                let checksum := CalculateChecksum data
                let checksumOK := decide (checksum = m.Backup.Checksum)
                let result := { result with ChecksumOK := checksumOK }
                let result := if !checksumOK then { result with Valid := false, Errors := result.Errors ++ ["checksum mismatch"] } else result
                (Except.ok result, [StorageOp.existsCheck backupFile, StorageOp.sizeCheck backupFile, StorageOp.readFile backupFile])
            else
              (Except.ok { result with ChecksumOK := true }, [StorageOp.existsCheck backupFile, StorageOp.sizeCheck backupFile])

/-! ## `internal/backup/retry.go`: the retry wrapper

The operation is an oracle `fn` giving the outcome of its `n`-th
invocation; the cancellation context is a pair of oracles saying whether
`ctx.Done()` has fired at the pre-attempt check of attempt `n`, and
whether cancellation wins the `select` during the wait that follows
attempt `n`.  Durations are `int64` nanoseconds; the `float64`
multiplication `time.Duration(float64(wait) * cfg.Multiplier)` is
modelled as exact rational multiplication truncated toward zero
(exact for the configurations of interest; `float64` rounding of huge
values is not modelled). -/

/-- `backup.RetryConfig` (waits in nanoseconds, multiplier as a rational). -/
structure RetryConfig where
  MaxAttempts : Int
  InitialWait : Int
  MaxWait : Int
  Multiplier : ℚ

/-- A Go `error` as `isRetryable` observes it: its message bytes
(`err.Error()`), and whether `errors.Is` relates it to
`context.Canceled` / `context.DeadlineExceeded`. -/
structure GoError where
  msg : List Nat
  isCanceled : Bool
  isDeadlineExceeded : Bool
deriving DecidableEq, Repr

/-- ASCII bytes of a string literal (all strings involved are ASCII, so
UTF-8 bytes coincide with code points). -/
def goBytes (s : String) : List Nat := s.data.map Char.toNat

/-- `backup.equalFoldSlice`: byte-wise ASCII-case-insensitive equality. -/
def equalFoldSlice (a b : List Nat) : Bool :=
  decide (a.length = b.length) &&
    (a.zip b).all fun p =>
      decide ((if 65 ≤ p.1 ∧ p.1 ≤ 90 then p.1 + 32 else p.1) =
              (if 65 ≤ p.2 ∧ p.2 ≤ 90 then p.2 + 32 else p.2))

/-- `backup.containsLower`: scan every window of `s` of `sub`'s length. -/
def containsLower (s sub : List Nat) : Bool :=
  (List.range (s.length - sub.length + 1)).any fun i =>
    equalFoldSlice ((s.drop i).take sub.length) sub

/-- `backup.contains`. -/
def contains (s sub : List Nat) : Bool :=
  decide (sub.length ≤ s.length) &&
    (decide (s = sub) || (decide (0 < s.length) && containsLower s sub))

/-- The `nonRetryableErrors` table of `isRetryable`. -/
def nonRetryableErrors : List (List Nat) :=
  [goBytes "permission denied",
   goBytes "access denied",
   goBytes "authentication failed",
   goBytes "invalid password",
   goBytes "database does not exist",
   goBytes "role does not exist"]

/-- `backup.isRetryable` on a non-nil error (the wrapper only consults it
when `err != nil`, so the Go nil-guard is unreachable here). -/
def isRetryable (err : GoError) : Bool :=
  if err.isCanceled || err.isDeadlineExceeded then false
  else if nonRetryableErrors.any (fun s => contains err.msg s) then false
  else true

/-- The cancellation context: `doneAtCheck n` is what the non-blocking
`ctx.Done()` check before attempt `n` observes (`some e` means cancelled
with `ctx.Err() = e`); `doneDuringWait n` says whether cancellation wins
the `select` during the wait after attempt `n`. -/
structure Ctx where
  doneAtCheck : Nat → Option GoError
  doneDuringWait : Nat → Option GoError

/-- The observable outcome of a `WithRetry` call: the returned value and
error (Go returns the pair; the zero value is `none`), the number of
invocations of the operation, and the waits actually slept through
(nanoseconds, in order). -/
structure RetryTrace (T : Type) where
  value : Option T
  error : Option GoError
  calls : Nat
  waits : List Int
deriving DecidableEq, Repr

/-- `time.Duration(float64(wait) * multiplier)`: exact rational scaling of
an `int64` nanosecond count, truncated toward zero as Go's float-to-int
conversion does.  Computed directly on the multiplier's numerator and
denominator so the definition is kernel-evaluable. -/
def scaleWait (wait : Int) (mult : ℚ) : Int := (wait * mult.num).tdiv (mult.den : Int)

/-- The `for attempt := 1; attempt <= cfg.MaxAttempts; attempt++` loop of
`WithRetry`; `fuel` is the number of iterations the bound still allows
(so `fuel = 0` reproduces the loop exiting and returning `lastErr`), and
`fuel > 0` after a retryable failure is exactly `attempt < MaxAttempts`. -/
def retryLoop {T : Type} (cfg : RetryConfig) (ctx : Ctx) (fn : Nat → Except GoError T) :
    Nat → Nat → Int → Option GoError → RetryTrace T
  | 0, _, _, lastErr => ⟨none, lastErr, 0, []⟩
  | fuel + 1, attempt, wait, _lastErr =>
    match ctx.doneAtCheck attempt with
    | some e => ⟨none, some e, 0, []⟩
    | none =>
      match fn attempt with
      | Except.ok t => ⟨some t, none, 1, []⟩
      | Except.error err =>
        if isRetryable err then
          if fuel = 0 then ⟨none, some err, 1, []⟩
          else
            match ctx.doneDuringWait attempt with
            | some e => ⟨none, some e, 1, []⟩
            | none =>
              let nextWait := scaleWait wait cfg.Multiplier
              let nextWait := if nextWait > cfg.MaxWait then cfg.MaxWait else nextWait
              let rest := retryLoop cfg ctx fn fuel (attempt + 1) nextWait (some err)
              ⟨rest.value, rest.error, rest.calls + 1, wait :: rest.waits⟩
        else ⟨none, some err, 1, []⟩

/-- `backup.WithRetry`. -/
def WithRetry {T : Type} (cfg : RetryConfig) (ctx : Ctx) (fn : Nat → Except GoError T) :
    RetryTrace T :=
  retryLoop cfg ctx fn cfg.MaxAttempts.toNat 1 cfg.InitialWait none

/-- The update the loop applies to `wait` after sleeping: multiply by the
multiplier (truncating) and cap at `MaxWait`. -/
def capScale (cfg : RetryConfig) (wait : Int) : Int :=
  let w := scaleWait wait cfg.Multiplier
  if w > cfg.MaxWait then cfg.MaxWait else w

/-- The `n` waits the loop sleeps through starting from wait `w`: `w`
itself, then `capScale` applied repeatedly.  Note the first wait is used
as-is — it is never compared against `MaxWait`. -/
def waitsFrom (cfg : RetryConfig) (w : Int) : Nat → List Int
  | 0 => []
  | n + 1 => w :: waitsFrom cfg (capScale cfg w) n

/-- A context that is never cancelled. -/
def liveCtx : Ctx := ⟨fun _ => none, fun _ => none⟩

-- Sanity: the repository's `TestWithRetry_SuccessAfterRetries` shape
-- (two retryable failures then success, MaxAttempts = 3, waits 10ms, 20ms).
theorem withRetry_testVector :
    WithRetry ⟨3, 10000000, 100000000, 2⟩ liveCtx
      (fun n => if n < 3 then Except.error ⟨goBytes "temporary error", false, false⟩
                else Except.ok (42 : Nat)) =
      ⟨some 42, none, 3, [10000000, 20000000]⟩ := by decide

/-! ## Rotator lemmas: a closed characterisation of the keep-walk -/

/-- Number of records in `l` classified weekly (Sunday timestamps). -/
def cntSunday (l : List BackupMetadata) : Int :=
  ((l.filter fun a => decide (weekdayOfSec a.Timestamp = 0)).length : Int)

/-- Number of records in `l` classified monthly (first-of-month timestamps). -/
def cntFirst (l : List BackupMetadata) : Int :=
  ((l.filter fun a => decide (dayOfMonthOfSec a.Timestamp = 1)).length : Int)

theorem cntSunday_nil : cntSunday [] = 0 := rfl

theorem cntFirst_nil : cntFirst [] = 0 := rfl

theorem cntSunday_cons (a : BackupMetadata) (l : List BackupMetadata) :
    cntSunday (a :: l) =
      (if weekdayOfSec a.Timestamp = 0 then 1 else 0) + cntSunday l := by
  by_cases h : weekdayOfSec a.Timestamp = 0 <;>
    simp [cntSunday, List.filter_cons, h] <;> push_cast <;> ring

theorem cntFirst_cons (a : BackupMetadata) (l : List BackupMetadata) :
    cntFirst (a :: l) =
      (if dayOfMonthOfSec a.Timestamp = 1 then 1 else 0) + cntFirst l := by
  by_cases h : dayOfMonthOfSec a.Timestamp = 1 <;>
    simp [cntFirst, List.filter_cons, h] <;> push_cast <;> ring

theorem cntSunday_nonneg (l : List BackupMetadata) : 0 ≤ cntSunday l :=
  Int.natCast_nonneg _

theorem cntFirst_nonneg (l : List BackupMetadata) : 0 ≤ cntFirst l :=
  Int.natCast_nonneg _

/-- Closed form of the classification fold: each tier counter advances
exactly when the record carries that tag and the counter is below the
quota, and the record is flagged kept when some tier accepted it. -/
theorem foldTypes (p : Policy) (t : Int) (st : WalkState) :
    (ClassifyBackup t).foldl (tierStep p) (st, false) =
      (⟨st.dailyCount + (if st.dailyCount < p.KeepDaily then 1 else 0),
        st.weeklyCount + (if weekdayOfSec t = 0 ∧ st.weeklyCount < p.KeepWeekly then 1 else 0),
        st.monthlyCount + (if dayOfMonthOfSec t = 1 ∧ st.monthlyCount < p.KeepMonthly then 1 else 0),
        st.keep⟩,
       decide (st.dailyCount < p.KeepDaily ∨
         (weekdayOfSec t = 0 ∧ st.weeklyCount < p.KeepWeekly) ∨
         (dayOfMonthOfSec t = 1 ∧ st.monthlyCount < p.KeepMonthly))) := by
  obtain ⟨d, w, m, K⟩ := st
  by_cases hw : weekdayOfSec t = 0 <;> by_cases hm : dayOfMonthOfSec t = 1 <;>
    by_cases h1 : d < p.KeepDaily <;> by_cases h2 : w < p.KeepWeekly <;>
    by_cases h3 : m < p.KeepMonthly <;>
    simp [ClassifyBackup, tierStep, hw, hm, h1, h2, h3]

/-- Closed form of one keep-walk step. -/
theorem recordStep_closed (p : Policy) (st : WalkState) (b : BackupMetadata) :
    recordStep p st b =
      ⟨st.dailyCount + (if st.dailyCount < p.KeepDaily then 1 else 0),
       st.weeklyCount + (if weekdayOfSec b.Timestamp = 0 ∧ st.weeklyCount < p.KeepWeekly then 1 else 0),
       st.monthlyCount + (if dayOfMonthOfSec b.Timestamp = 1 ∧ st.monthlyCount < p.KeepMonthly then 1 else 0),
       st.keep ++
         (if st.dailyCount < p.KeepDaily ∨
             (weekdayOfSec b.Timestamp = 0 ∧ st.weeklyCount < p.KeepWeekly) ∨
             (dayOfMonthOfSec b.Timestamp = 1 ∧ st.monthlyCount < p.KeepMonthly)
          then [b.ID] else [])⟩ := by
  unfold recordStep
  rw [foldTypes]
  by_cases h : st.dailyCount < p.KeepDaily ∨
      (weekdayOfSec b.Timestamp = 0 ∧ st.weeklyCount < p.KeepWeekly) ∨
      (dayOfMonthOfSec b.Timestamp = 1 ∧ st.monthlyCount < p.KeepMonthly) <;>
    simp [h]

theorem keepWalk_cons (p : Policy) (b : BackupMetadata) (rest : List BackupMetadata)
    (st : WalkState) : keepWalk p (b :: rest) st = keepWalk p rest (recordStep p st b) := rfl

/-- The keep set after one step: unchanged, or extended by the record's ID. -/
theorem recordStep_keep (p : Policy) (st : WalkState) (b : BackupMetadata) :
    (recordStep p st b).keep =
      st.keep ++
        (if st.dailyCount < p.KeepDaily ∨
            (weekdayOfSec b.Timestamp = 0 ∧ st.weeklyCount < p.KeepWeekly) ∨
            (dayOfMonthOfSec b.Timestamp = 1 ∧ st.monthlyCount < p.KeepMonthly)
         then [b.ID] else []) := by
  rw [recordStep_closed]

/-- The keep-walk only appends to the keep set, and every ID it appends
belongs to a walked record. -/
theorem keepWalk_keep_extend (p : Policy) (l : List BackupMetadata) (st : WalkState) :
    ∃ ex, (keepWalk p l st).keep = st.keep ++ ex ∧ ∀ x ∈ ex, ∃ b, b ∈ l ∧ x = b.ID := by
  induction l generalizing st with
  | nil => exact ⟨[], by simp [keepWalk]⟩
  | cons b rest ih =>
    rw [keepWalk_cons]
    obtain ⟨ex, hex, hmem⟩ := ih (recordStep p st b)
    by_cases h : st.dailyCount < p.KeepDaily ∨
        (weekdayOfSec b.Timestamp = 0 ∧ st.weeklyCount < p.KeepWeekly) ∨
        (dayOfMonthOfSec b.Timestamp = 1 ∧ st.monthlyCount < p.KeepMonthly)
    · refine ⟨b.ID :: ex, ?_, ?_⟩
      · rw [hex, recordStep_keep]; simp [h]
      · intro x hx
        rcases List.mem_cons.mp hx with h' | h'
        · exact ⟨b, List.mem_cons_self b rest, h'⟩
        · obtain ⟨c, hc, hc'⟩ := hmem x h'
          exact ⟨c, List.mem_cons_of_mem _ hc, hc'⟩
    · refine ⟨ex, ?_, ?_⟩
      · rw [hex, recordStep_keep]; simp [h]
      · intro x hx
        obtain ⟨c, hc, hc'⟩ := hmem x hx
        exact ⟨c, List.mem_cons_of_mem _ hc, hc'⟩

/-- Main characterisation of the keep-walk: walking `l₁ ++ b :: l₂` from
counters `(d, w, m)` and keep set `K` (with `b`'s ID fresh), `b` ends up
marked kept exactly when one of its tags still fits under its quota when
the walk reaches it — that is, when the number of records of that tag
walked before it, offset by the starting counter, is below the quota. -/
theorem kept_iff (p : Policy) (b : BackupMetadata) :
    ∀ (l₁ l₂ : List BackupMetadata) (d w m : Int) (K : List String),
      b.ID ∉ K → (∀ a ∈ l₁, a.ID ≠ b.ID) → (∀ a ∈ l₂, a.ID ≠ b.ID) →
      (b.ID ∈ (keepWalk p (l₁ ++ b :: l₂) ⟨d, w, m, K⟩).keep ↔
        (d + (l₁.length : Int) < p.KeepDaily ∨
         (weekdayOfSec b.Timestamp = 0 ∧ w + cntSunday l₁ < p.KeepWeekly) ∨
         (dayOfMonthOfSec b.Timestamp = 1 ∧ m + cntFirst l₁ < p.KeepMonthly)))
  | [], l₂, d, w, m, K, hK, _, h₂ => by
    rw [List.nil_append, keepWalk_cons]
    obtain ⟨ex, hex, hmem⟩ := keepWalk_keep_extend p l₂ (recordStep p ⟨d, w, m, K⟩ b)
    have hbex : b.ID ∉ ex := by
      intro hx
      obtain ⟨c, hc, hc'⟩ := hmem _ hx
      exact h₂ c hc hc'.symm
    rw [hex, recordStep_keep]
    by_cases h : d < p.KeepDaily ∨
        (weekdayOfSec b.Timestamp = 0 ∧ w < p.KeepWeekly) ∨
        (dayOfMonthOfSec b.Timestamp = 1 ∧ m < p.KeepMonthly)
    · simp [h, hK, hbex, cntSunday_nil, cntFirst_nil]
    · simp [h, hK, hbex, cntSunday_nil, cntFirst_nil]
  | a :: l₁, l₂, d, w, m, K, hK, h₁, h₂ => by
    have hab : a.ID ≠ b.ID := h₁ a (List.mem_cons_self a l₁)
    have h₁' : ∀ c ∈ l₁, c.ID ≠ b.ID := fun c hc => h₁ c (List.mem_cons_of_mem _ hc)
    rw [List.cons_append, keepWalk_cons, recordStep_closed]
    rw [kept_iff p b l₁ l₂ _ _ _ _ ?fresh h₁' h₂]
    case fresh =>
      intro hmem
      rcases List.mem_append.mp hmem with h' | h'
      · exact hK h'
      · have hba : b.ID = a.ID := by
          by_cases hc : d < p.KeepDaily ∨
              (weekdayOfSec a.Timestamp = 0 ∧ w < p.KeepWeekly) ∨
              (dayOfMonthOfSec a.Timestamp = 1 ∧ m < p.KeepMonthly)
          · simpa [hc] using h'
          · simp [hc] at h'
        exact hab hba.symm
    have hD : d + (if d < p.KeepDaily then 1 else 0) + (l₁.length : Int) < p.KeepDaily ↔
        d + ((a :: l₁).length : Int) < p.KeepDaily := by
      by_cases h : d < p.KeepDaily <;> simp [h, List.length_cons] <;> push_cast <;> omega
    have hW : w + (if weekdayOfSec a.Timestamp = 0 ∧ w < p.KeepWeekly then 1 else 0) +
        cntSunday l₁ < p.KeepWeekly ↔ w + cntSunday (a :: l₁) < p.KeepWeekly := by
      have := cntSunday_nonneg l₁
      rw [cntSunday_cons]
      by_cases hsa : weekdayOfSec a.Timestamp = 0 <;>
        by_cases h2 : w < p.KeepWeekly <;> simp [hsa, h2] <;> omega
    have hM : m + (if dayOfMonthOfSec a.Timestamp = 1 ∧ m < p.KeepMonthly then 1 else 0) +
        cntFirst l₁ < p.KeepMonthly ↔ m + cntFirst (a :: l₁) < p.KeepMonthly := by
      have := cntFirst_nonneg l₁
      rw [cntFirst_cons]
      by_cases hfa : dayOfMonthOfSec a.Timestamp = 1 <;>
        by_cases h3 : m < p.KeepMonthly <;> simp [hfa, h3] <;> omega
    rw [hD, hW, hM]

/-- The delete loop is a filter: records not in the keep set, plus kept
records caught by the max-age rule. -/
theorem deleteLoop_eq_filter (p : Policy) (now : Int) (K : List String)
    (l : List BackupMetadata) :
    deleteLoop p now K l =
      l.filter fun b => !(decide (b.ID ∈ K)) || decide (overMaxAge p now b.Timestamp) := by
  induction l with
  | nil => rfl
  | cons b rest ih =>
    by_cases h1 : b.ID ∈ K <;> by_cases h2 : overMaxAge p now b.Timestamp <;>
      simp [deleteLoop, List.filter_cons, h1, h2, ih]

/-- With pairwise-distinct timestamps, the newest-first sort is strictly
descending. -/
theorem sortNewestFirst_strictDesc (backups : List BackupMetadata)
    (hts : backups.Pairwise fun a c => a.Timestamp ≠ c.Timestamp) :
    (sortNewestFirst backups).Pairwise fun a c => c.Timestamp < a.Timestamp := by
  have hperm : List.Perm (sortNewestFirst backups) backups :=
    List.perm_insertionSort _ _
  have hsorted : (sortNewestFirst backups).Pairwise tsDescend :=
    List.sorted_insertionSort _ _
  have hne : (sortNewestFirst backups).Pairwise fun a c => a.Timestamp ≠ c.Timestamp :=
    (hperm.pairwise_iff fun hxy => Ne.symm hxy).mpr hts
  exact (hsorted.and hne).imp fun h => lt_of_le_of_ne h.1 fun e => h.2 e.symm

/-- Splitting a list with no duplicate IDs at an occurrence of `b`: every
other record's ID differs from `b`'s. -/
theorem ids_split (l₁ : List BackupMetadata) (b : BackupMetadata) (l₂ : List BackupMetadata)
    (h : ((l₁ ++ b :: l₂).map BackupMetadata.ID).Nodup) :
    (∀ a ∈ l₁, a.ID ≠ b.ID) ∧ ∀ a ∈ l₂, a.ID ≠ b.ID := by
  rw [List.map_append, List.map_cons, List.nodup_append] at h
  obtain ⟨_, h2, hdisj⟩ := h
  refine ⟨fun a ha he => ?_, fun a ha he => ?_⟩
  · exact hdisj (he ▸ List.mem_map_of_mem BackupMetadata.ID ha)
      (List.mem_cons_self _ _)
  · exact (List.pairwise_cons.mp h2).1 a.ID (List.mem_map_of_mem BackupMetadata.ID ha) he.symm

/-- In a strictly-descending split `l₁ ++ b :: l₂`, the records passing a
tag predicate and strictly newer than `b` are exactly the tagged records
of `l₁`. -/
theorem filter_newer_split (q : BackupMetadata → Bool) (l₁ : List BackupMetadata)
    (b : BackupMetadata) (l₂ : List BackupMetadata)
    (hdesc : (l₁ ++ b :: l₂).Pairwise fun a c => c.Timestamp < a.Timestamp) :
    ((l₁ ++ b :: l₂).filter fun r => q r && decide (b.Timestamp < r.Timestamp)) =
      l₁.filter q := by
  rw [List.filter_append]
  rw [List.pairwise_append] at hdesc
  obtain ⟨_, h2, h12⟩ := hdesc
  have e1 : (l₁.filter fun r => q r && decide (b.Timestamp < r.Timestamp)) = l₁.filter q :=
    List.filter_congr fun a ha => by
      simp [h12 a ha b (List.mem_cons_self _ _)]
  have e2 : ((b :: l₂).filter fun r => q r && decide (b.Timestamp < r.Timestamp)) = [] := by
    refine List.filter_eq_nil_iff.mpr fun c hc => ?_
    rcases List.mem_cons.mp hc with rfl | hc'
    · simp
    · have hlt : c.Timestamp < b.Timestamp := (List.pairwise_cons.mp h2).1 c hc'
      simp [show ¬ b.Timestamp < c.Timestamp from not_lt.mpr hlt.le]
  rw [e1, e2, List.append_nil]

/-- Specialisation of `filter_newer_split` to no tag predicate. -/
theorem newer_split (l₁ : List BackupMetadata) (b : BackupMetadata) (l₂ : List BackupMetadata)
    (hdesc : (l₁ ++ b :: l₂).Pairwise fun a c => c.Timestamp < a.Timestamp) :
    ((l₁ ++ b :: l₂).filter fun r => decide (b.Timestamp < r.Timestamp)) = l₁ := by
  have h := filter_newer_split (fun _ => true) l₁ b l₂ hdesc
  simpa using h

/-! ## Quota vocabulary for the claims: counts of strictly newer records -/

/-- Number of records of `backups` strictly newer than `b`. -/
def newerCount (backups : List BackupMetadata) (b : BackupMetadata) : Int :=
  ((backups.filter fun r => decide (b.Timestamp < r.Timestamp)).length : Int)

/-- Number of Sunday (weekly-classified) records strictly newer than `b`. -/
def newerSundayCount (backups : List BackupMetadata) (b : BackupMetadata) : Int :=
  ((backups.filter fun r =>
      decide (weekdayOfSec r.Timestamp = 0) && decide (b.Timestamp < r.Timestamp)).length : Int)

/-- Number of first-of-month (monthly-classified) records strictly newer than `b`. -/
def newerFirstCount (backups : List BackupMetadata) (b : BackupMetadata) : Int :=
  ((backups.filter fun r =>
      decide (dayOfMonthOfSec r.Timestamp = 1) && decide (b.Timestamp < r.Timestamp)).length : Int)

/-- `b` is protected by some tier quota: one of its tags has fewer strictly
newer records carrying that tag than the tier's quota. -/
def tierKept (p : Policy) (backups : List BackupMetadata) (b : BackupMetadata) : Prop :=
  newerCount backups b < p.KeepDaily ∨
  (weekdayOfSec b.Timestamp = 0 ∧ newerSundayCount backups b < p.KeepWeekly) ∨
  (dayOfMonthOfSec b.Timestamp = 1 ∧ newerFirstCount backups b < p.KeepMonthly)

/-- For a record of the input (pairwise-distinct timestamps and IDs), being
marked kept by the keep-walk over the sorted list is exactly `tierKept`. -/
theorem keep_mem_iff (p : Policy) (backups : List BackupMetadata) (b : BackupMetadata)
    (hb : b ∈ backups)
    (hts : backups.Pairwise fun a c => a.Timestamp ≠ c.Timestamp)
    (hids : (backups.map BackupMetadata.ID).Nodup) :
    (b.ID ∈ (keepWalk p (sortNewestFirst backups) ⟨0, 0, 0, []⟩).keep ↔
      tierKept p backups b) := by
  have hperm : List.Perm (sortNewestFirst backups) backups := List.perm_insertionSort _ _
  have hdesc := sortNewestFirst_strictDesc backups hts
  have hidsS : ((sortNewestFirst backups).map BackupMetadata.ID).Nodup :=
    ((hperm.map BackupMetadata.ID).nodup_iff).mpr hids
  obtain ⟨l₁, l₂, hsplit⟩ := List.append_of_mem (hperm.mem_iff.mpr hb)
  rw [hsplit] at hdesc hidsS ⊢
  obtain ⟨hfresh₁, hfresh₂⟩ := ids_split l₁ b l₂ hidsS
  rw [kept_iff p b l₁ l₂ 0 0 0 [] (List.not_mem_nil _) hfresh₁ hfresh₂]
  have hcntD : newerCount backups b = (l₁.length : Int) := by
    unfold newerCount
    rw [← (hperm.filter _).length_eq, hsplit, newer_split l₁ b l₂ hdesc]
  have hcntW : newerSundayCount backups b = cntSunday l₁ := by
    unfold newerSundayCount cntSunday
    rw [← (hperm.filter _).length_eq, hsplit,
      filter_newer_split (fun r => decide (weekdayOfSec r.Timestamp = 0)) l₁ b l₂ hdesc]
  have hcntM : newerFirstCount backups b = cntFirst l₁ := by
    unfold newerFirstCount cntFirst
    rw [← (hperm.filter _).length_eq, hsplit,
      filter_newer_split (fun r => decide (dayOfMonthOfSec r.Timestamp = 1)) l₁ b l₂ hdesc]
  unfold tierKept
  rw [hcntD, hcntW, hcntM]
  simp only [zero_add]

/-- Central membership characterisation of `DetermineBackupsToDelete`: a
record of the input (pairwise-distinct timestamps and IDs) is deleted iff
no tier quota protects it, or the max-age rule fires for it. -/
theorem mem_delete_iff (g : GFSRotator) (now : Int) (backups : List BackupMetadata)
    (b : BackupMetadata) (hb : b ∈ backups)
    (hts : backups.Pairwise fun a c => a.Timestamp ≠ c.Timestamp)
    (hids : (backups.map BackupMetadata.ID).Nodup) :
    (b ∈ g.DetermineBackupsToDelete now backups ↔
      (¬ tierKept g.policy backups b ∨ overMaxAge g.policy now b.Timestamp)) := by
  have hperm : List.Perm (sortNewestFirst backups) backups := List.perm_insertionSort _ _
  have hne : backups.length ≠ 0 := by
    intro h0
    rw [List.length_eq_zero] at h0
    subst h0
    exact List.not_mem_nil b hb
  unfold GFSRotator.DetermineBackupsToDelete
  rw [if_neg hne, deleteLoop_eq_filter, List.mem_filter]
  rw [keep_mem_iff g.policy backups b hb hts hids |>.symm]
  constructor
  · rintro ⟨_, hp⟩
    rcases Bool.or_eq_true _ _ |>.mp hp with h | h
    · exact Or.inl (by simpa using h)
    · exact Or.inr (by simpa using h)
  · intro h
    refine ⟨hperm.mem_iff.mpr hb, ?_⟩
    rcases h with h | h
    · simp [h]
    · simp [h]

/-- The count of strictly newer records equals the position in the
newest-first sort. -/
theorem newerCount_eq (backups : List BackupMetadata) (c : BackupMetadata)
    (l₁ l₂ : List BackupMetadata) (hsplit : sortNewestFirst backups = l₁ ++ c :: l₂)
    (hts : backups.Pairwise fun a d => a.Timestamp ≠ d.Timestamp) :
    newerCount backups c = (l₁.length : Int) := by
  have hperm : List.Perm (sortNewestFirst backups) backups := List.perm_insertionSort _ _
  have hdesc := sortNewestFirst_strictDesc backups hts
  rw [hsplit] at hdesc
  unfold newerCount
  rw [← (hperm.filter _).length_eq, hsplit, newer_split l₁ c l₂ hdesc]

/-- **C1**: for a policy `keepDaily = N, keepWeekly = 0, keepMonthly = 0,
maxAgeDays = 0` and `N + k` (`k > 0`) records with pairwise-distinct
timestamps (and distinct IDs, per the data-model invariant), each
classified daily only, `DetermineBackupsToDelete` returns exactly `k`
records — the `k` oldest, i.e. those with at least `N` strictly newer
records. -/
theorem keepDaily_deletes_exactly_oldest
    (N k : Nat) (now : Int) (backups : List BackupMetadata)
    (hlen : backups.length = N + k) (hk : 0 < k)
    (hts : backups.Pairwise fun a c => a.Timestamp ≠ c.Timestamp)
    (hids : (backups.map BackupMetadata.ID).Nodup)
    (hdaily : ∀ b ∈ backups, weekdayOfSec b.Timestamp ≠ 0 ∧ dayOfMonthOfSec b.Timestamp ≠ 1) :
    (GFSRotator.DetermineBackupsToDelete ⟨⟨(N : Int), 0, 0, 0⟩⟩ now backups).length = k ∧
    (GFSRotator.DetermineBackupsToDelete ⟨⟨(N : Int), 0, 0, 0⟩⟩ now backups).Nodup ∧
    ∀ b ∈ backups,
      (b ∈ GFSRotator.DetermineBackupsToDelete ⟨⟨(N : Int), 0, 0, 0⟩⟩ now backups ↔
        (N : Int) ≤ newerCount backups b) := by
  clear hdaily
  have hne : backups.length ≠ 0 := by rw [hlen]; omega
  set sorted := sortNewestFirst backups with hsorted_def
  have hperm : List.Perm sorted backups := List.perm_insertionSort _ _
  have hdesc := sortNewestFirst_strictDesc backups hts
  have hidsS : (sorted.map BackupMetadata.ID).Nodup := ((hperm.map _).nodup_iff).mpr hids
  have hlenS : sorted.length = N + k := hperm.length_eq.trans hlen
  have htake : (sorted.take N).length = N := by rw [List.length_take]; omega
  have hsplitTD : sorted.take N ++ sorted.drop N = sorted := List.take_append_drop N sorted
  have hkeep : ∀ c ∈ backups,
      (c.ID ∈ (keepWalk ⟨(N : Int), 0, 0, 0⟩ sorted ⟨0, 0, 0, []⟩).keep ↔
        newerCount backups c < (N : Int)) := by
    intro c hc
    rw [keep_mem_iff ⟨(N : Int), 0, 0, 0⟩ backups c hc hts hids]
    have hW : ¬ newerSundayCount backups c < (0 : Int) := not_lt.mpr (Int.natCast_nonneg _)
    have hM : ¬ newerFirstCount backups c < (0 : Int) := not_lt.mpr (Int.natCast_nonneg _)
    unfold tierKept
    simp [hW, hM]
  have hmemTake : ∀ c ∈ sorted.take N, newerCount backups c < (N : Int) := by
    intro c hc
    obtain ⟨t₁, t₂, ht⟩ := List.append_of_mem hc
    have hsplit : sorted = t₁ ++ c :: (t₂ ++ sorted.drop N) := by
      conv_lhs => rw [← hsplitTD]
      rw [ht, List.append_assoc, List.cons_append]
    rw [newerCount_eq backups c t₁ _ hsplit hts]
    have hlt : t₁.length < N := by
      have h' := congrArg List.length ht
      rw [htake, List.length_append, List.length_cons] at h'
      omega
    exact_mod_cast hlt
  have hmemDrop : ∀ c ∈ sorted.drop N, (N : Int) ≤ newerCount backups c := by
    intro c hc
    obtain ⟨d₁, d₂, hd⟩ := List.append_of_mem hc
    have hsplit : sorted = (sorted.take N ++ d₁) ++ c :: d₂ := by
      conv_lhs => rw [← hsplitTD]
      rw [hd, List.append_assoc]
    rw [newerCount_eq backups c _ _ hsplit hts]
    have hge : N ≤ (sorted.take N ++ d₁).length := by
      rw [List.length_append, htake]; omega
    exact_mod_cast hge
  have hD : GFSRotator.DetermineBackupsToDelete ⟨⟨(N : Int), 0, 0, 0⟩⟩ now backups =
      sorted.drop N := by
    unfold GFSRotator.DetermineBackupsToDelete
    rw [if_neg hne, deleteLoop_eq_filter]
    dsimp only
    rw [← hsorted_def]
    set K := (keepWalk ⟨(N : Int), 0, 0, 0⟩ sorted ⟨0, 0, 0, []⟩).keep with hKdef
    have h1 : ((sorted.take N).filter fun c =>
        !(decide (c.ID ∈ K)) ||
          decide (overMaxAge ⟨(N : Int), 0, 0, 0⟩ now c.Timestamp)) = [] := by
      refine List.filter_eq_nil_iff.mpr fun c hc => ?_
      have hcb : c ∈ backups := hperm.mem_iff.mp ((List.take_sublist N sorted).subset hc)
      have hin := (hkeep c hcb).mpr (hmemTake c hc)
      rw [hKdef]
      simp [hin, overMaxAge]
    have h2 : ((sorted.drop N).filter fun c =>
        !(decide (c.ID ∈ K)) ||
          decide (overMaxAge ⟨(N : Int), 0, 0, 0⟩ now c.Timestamp)) = sorted.drop N := by
      refine List.filter_eq_self.mpr fun c hc => ?_
      have hcb : c ∈ backups := hperm.mem_iff.mp ((List.drop_sublist N sorted).subset hc)
      have hnin : ¬ c.ID ∈ K :=
        fun hin => absurd ((hkeep c hcb).mp (hKdef ▸ hin)) (not_lt.mpr (hmemDrop c hc))
      simp [hnin]
    conv_lhs => rw [← hsplitTD]
    rw [List.filter_append, h1, h2, List.nil_append]
  refine ⟨?_, ?_, ?_⟩
  · rw [hD, List.length_drop, hlenS]; omega
  · rw [hD]
    exact ((hidsS.of_map _).sublist (List.drop_sublist N sorted))
  · intro b hb
    rw [hD]
    constructor
    · exact fun h => hmemDrop b h
    · intro hge
      have hbs : b ∈ sorted := hperm.mem_iff.mpr hb
      rw [← hsplitTD] at hbs
      rcases List.mem_append.mp hbs with h | h
      · exact absurd (hmemTake b h) (not_lt.mpr hge)
      · exact h

/-- `DetermineBackupsToDelete` on a nonempty input is the delete-filter over
the newest-first sort. -/
theorem determine_eq_filter (g : GFSRotator) (now : Int) (backups : List BackupMetadata)
    (hne : backups.length ≠ 0) :
    g.DetermineBackupsToDelete now backups =
      (sortNewestFirst backups).filter fun c =>
        !(decide (c.ID ∈ (keepWalk g.policy (sortNewestFirst backups) ⟨0, 0, 0, []⟩).keep)) ||
          decide (overMaxAge g.policy now c.Timestamp) := by
  unfold GFSRotator.DetermineBackupsToDelete
  rw [if_neg hne, deleteLoop_eq_filter]

/-- **C2**: a record that is both a Sunday and a first-of-month counts
toward the weekly and the monthly quota independently: it is kept as soon
as either tier's quota is not yet exhausted at its position (in
particular, setting one of the two quotas to zero does not delete it
while the other still protects it), provided the max-age rule does not
fire for it; and, with distinct IDs, no record appears in the returned
delete list more than once. -/
theorem sundayFirstOfMonth_dual_quota
    (p : Policy) (now : Int) (backups : List BackupMetadata) (b : BackupMetadata)
    (hb : b ∈ backups)
    (hts : backups.Pairwise fun a c => a.Timestamp ≠ c.Timestamp)
    (hids : (backups.map BackupMetadata.ID).Nodup)
    (hsun : weekdayOfSec b.Timestamp = 0)
    (hfirst : dayOfMonthOfSec b.Timestamp = 1)
    (hage : ¬ overMaxAge p now b.Timestamp) :
    ((newerSundayCount backups b < p.KeepWeekly ∨
        newerFirstCount backups b < p.KeepMonthly) →
      b ∉ GFSRotator.DetermineBackupsToDelete ⟨p⟩ now backups) ∧
    (GFSRotator.DetermineBackupsToDelete ⟨p⟩ now backups).Nodup := by
  have hne : backups.length ≠ 0 := by
    intro h0
    rw [List.length_eq_zero] at h0
    subst h0
    exact List.not_mem_nil b hb
  constructor
  · intro hq hmem
    rw [mem_delete_iff ⟨p⟩ now backups b hb hts hids] at hmem
    rcases hmem with hnk | hover
    · refine hnk ?_
      rcases hq with h | h
      · exact Or.inr (Or.inl ⟨hsun, h⟩)
      · exact Or.inr (Or.inr ⟨hfirst, h⟩)
    · exact hage hover
  · rw [determine_eq_filter ⟨p⟩ now backups hne]
    have hperm : List.Perm (sortNewestFirst backups) backups := List.perm_insertionSort _ _
    have hidsS : ((sortNewestFirst backups).map BackupMetadata.ID).Nodup :=
      ((hperm.map _).nodup_iff).mpr hids
    exact (hidsS.of_map _).filter _

/-- **C3 (amended)**: when `maxAgeDays > 0`, every record older than the
threshold is scheduled for deletion even if it is within all tier quotas;
a record within the threshold is scheduled for deletion exactly when no
tier quota keeps it (max-age never protects a record on its own). -/
theorem maxAge_overrides_tier_protection
    (p : Policy) (now : Int) (backups : List BackupMetadata) (b : BackupMetadata)
    (hb : b ∈ backups)
    (hts : backups.Pairwise fun a c => a.Timestamp ≠ c.Timestamp)
    (hids : (backups.map BackupMetadata.ID).Nodup)
    (hage : p.MaxAgeDays > 0) :
    (now - b.Timestamp > p.MaxAgeDays * 86400 →
      b ∈ GFSRotator.DetermineBackupsToDelete ⟨p⟩ now backups) ∧
    (now - b.Timestamp ≤ p.MaxAgeDays * 86400 →
      (b ∈ GFSRotator.DetermineBackupsToDelete ⟨p⟩ now backups ↔
        ¬ tierKept p backups b)) := by
  constructor
  · intro hold
    exact (mem_delete_iff ⟨p⟩ now backups b hb hts hids).mpr (Or.inr ⟨hage, hold⟩)
  · intro hyoung
    rw [mem_delete_iff ⟨p⟩ now backups b hb hts hids]
    constructor
    · rintro (h | h)
      · exact h
      · exact absurd h.2 (not_lt.mpr hyoung)
    · exact Or.inl

/-- Counterexample to C3 as stated: with `maxAgeDays = 10` and all tier
quotas zero, a one-day-old record — well within the max age, with every
quota exhausted — is still deleted, because no tier keeps it; so being
within `maxAgeDays` does not protect a record from deletion. -/
theorem maxAge_no_protection_counterexample :
    GFSRotator.DetermineBackupsToDelete ⟨⟨0, 0, 0, 10⟩⟩ 1705406400
        [⟨"b1", 1705320000, ⟨0, ""⟩, []⟩] =
      [⟨"b1", 1705320000, ⟨0, ""⟩, []⟩] ∧
    1705406400 - 1705320000 ≤ (10 : Int) * 86400 := by decide

/-- Witness for C1 at a concrete input: `keepDaily = 1`, two Monday/Tuesday
records, the single oldest one is deleted. -/
theorem keepDaily_deletes_exactly_oldest_witness :
    (GFSRotator.DetermineBackupsToDelete ⟨⟨((1 : Nat) : Int), 0, 0, 0⟩⟩ 0
        [⟨"b1", 1705320000, ⟨0, ""⟩, []⟩, ⟨"b2", 1705406400, ⟨0, ""⟩, []⟩]).length = 1 :=
  (keepDaily_deletes_exactly_oldest 1 1 0
    [⟨"b1", 1705320000, ⟨0, ""⟩, []⟩, ⟨"b2", 1705406400, ⟨0, ""⟩, []⟩]
    (by decide) (by decide) (by decide) (by decide) (by decide)).1

/-- Witness for C2 at a concrete input: 2024-09-01T12:00:00Z is a Sunday
and a first-of-month; with `keepWeekly = 0, keepMonthly = 1` (and with
`keepWeekly = 1, keepMonthly = 0`) the record is kept. -/
theorem sundayFirstOfMonth_dual_quota_witness :
    (⟨"b1", 1725192000, ⟨0, ""⟩, []⟩ ∉
      GFSRotator.DetermineBackupsToDelete ⟨⟨0, 0, 1, 0⟩⟩ 1725192001
        [⟨"b1", 1725192000, ⟨0, ""⟩, []⟩]) ∧
    (⟨"b1", 1725192000, ⟨0, ""⟩, []⟩ ∉
      GFSRotator.DetermineBackupsToDelete ⟨⟨0, 1, 0, 0⟩⟩ 1725192001
        [⟨"b1", 1725192000, ⟨0, ""⟩, []⟩]) :=
  ⟨(sundayFirstOfMonth_dual_quota ⟨0, 0, 1, 0⟩ 1725192001
      [⟨"b1", 1725192000, ⟨0, ""⟩, []⟩] ⟨"b1", 1725192000, ⟨0, ""⟩, []⟩
      (by decide) (by decide) (by decide) (by decide) (by decide) (by decide)).1
      (Or.inr (by decide)),
   (sundayFirstOfMonth_dual_quota ⟨0, 1, 0, 0⟩ 1725192001
      [⟨"b1", 1725192000, ⟨0, ""⟩, []⟩] ⟨"b1", 1725192000, ⟨0, ""⟩, []⟩
      (by decide) (by decide) (by decide) (by decide) (by decide) (by decide)).1
      (Or.inl (by decide))⟩

/-- Witness for the amended C3 at a concrete input: `keepDaily = 1`,
`maxAgeDays = 1`, a single record three days old is deleted although the
daily quota keeps it. -/
theorem maxAge_overrides_tier_protection_witness :
    ⟨"b1", 1705320000, ⟨0, ""⟩, []⟩ ∈
      GFSRotator.DetermineBackupsToDelete ⟨⟨1, 0, 0, 1⟩⟩ 1705579200
        [⟨"b1", 1705320000, ⟨0, ""⟩, []⟩] :=
  (maxAge_overrides_tier_protection ⟨1, 0, 0, 1⟩ 1705579200
    [⟨"b1", 1705320000, ⟨0, ""⟩, []⟩] ⟨"b1", 1705320000, ⟨0, ""⟩, []⟩
    (by decide) (by decide) (by decide) (by decide)).1 (by decide)

/-! ## Validator lemmas -/

/-- If every entry of the files list is the metadata key, the data-file
scan comes back empty. -/
theorem findDataFile_all_meta (metaName : String) :
    ∀ l : List String, (∀ f ∈ l, f = metaName) → findDataFile metaName l = ""
  | [], _ => rfl
  | f :: rest, h => by
    have hf : f = metaName := h f (List.mem_cons_self f rest)
    rw [findDataFile, if_neg (by simpa using hf)]
    exact findDataFile_all_meta metaName rest fun g hg => h g (List.mem_cons_of_mem f hg)

/-- `Validate` when the data file exists, the size call answers, and a
checksum is recorded: both remaining checks run and all failures are
accumulated. -/
theorem validate_eq_checksum (v : Backend) (m : BackupMetadata) (bf : String) (sz : Int)
    (data : List Nat)
    (hbf : findDataFile (m.ID ++ ".meta.json") m.Files = bf) (hbfne : bf ≠ "")
    (hex : v.ExistsQ bf = Except.ok true) (hsz : v.Size bf = Except.ok sz)
    (hck : m.Backup.Checksum ≠ "") (hrd : v.Read bf = Except.ok data) :
    Validate v m =
      (Except.ok
        ⟨m.ID,
         decide (sz = m.Backup.CompressedSize) &&
           decide (CalculateChecksum data = m.Backup.Checksum),
         true, decide (sz = m.Backup.CompressedSize),
         decide (CalculateChecksum data = m.Backup.Checksum),
         (if sz = m.Backup.CompressedSize then []
          else ["size mismatch: expected " ++ toString m.Backup.CompressedSize ++
                ", got " ++ toString sz]) ++
         (if CalculateChecksum data = m.Backup.Checksum then [] else ["checksum mismatch"])⟩,
       [StorageOp.existsCheck bf, StorageOp.sizeCheck bf, StorageOp.readFile bf]) := by
  have hflen : m.Files.length ≠ 0 := by
    intro h0
    rw [List.length_eq_zero] at h0
    rw [h0] at hbf
    exact hbfne hbf.symm
  unfold Validate
  by_cases hsm : sz = m.Backup.CompressedSize <;>
    by_cases hco : CalculateChecksum data = m.Backup.Checksum <;>
      simp [hflen, hbf, hbfne, hex, hsz, hck, hrd, hsm, hco]

/-- `Validate` when the data file exists, the size call answers, and no
checksum is recorded: the checksum check vacuously passes. -/
theorem validate_eq_no_checksum (v : Backend) (m : BackupMetadata) (bf : String) (sz : Int)
    (hbf : findDataFile (m.ID ++ ".meta.json") m.Files = bf) (hbfne : bf ≠ "")
    (hex : v.ExistsQ bf = Except.ok true) (hsz : v.Size bf = Except.ok sz)
    (hck : m.Backup.Checksum = "") :
    Validate v m =
      (Except.ok
        ⟨m.ID, decide (sz = m.Backup.CompressedSize), true,
         decide (sz = m.Backup.CompressedSize), true,
         if sz = m.Backup.CompressedSize then []
         else ["size mismatch: expected " ++ toString m.Backup.CompressedSize ++
               ", got " ++ toString sz]⟩,
       [StorageOp.existsCheck bf, StorageOp.sizeCheck bf]) := by
  have hflen : m.Files.length ≠ 0 := by
    intro h0
    rw [List.length_eq_zero] at h0
    rw [h0] at hbf
    exact hbfne hbf.symm
  unfold Validate
  by_cases hsm : sz = m.Backup.CompressedSize <;>
    simp [hflen, hbf, hbfne, hex, hsz, hck, hsm]

/-- `Validate` when the data file does not exist: stop after the existence
check. -/
theorem validate_eq_missing (v : Backend) (m : BackupMetadata) (bf : String)
    (hbf : findDataFile (m.ID ++ ".meta.json") m.Files = bf) (hbfne : bf ≠ "")
    (hex : v.ExistsQ bf = Except.ok false) :
    Validate v m =
      (Except.ok ⟨m.ID, false, false, false, false, ["backup file does not exist"]⟩,
       [StorageOp.existsCheck bf]) := by
  have hflen : m.Files.length ≠ 0 := by
    intro h0
    rw [List.length_eq_zero] at h0
    rw [h0] at hbf
    exact hbfne hbf.symm
  unfold Validate
  simp [hflen, hbf, hbfne, hex]

/-- **C4**: for a record whose canonical data file exists (and whose
storage calls succeed), `Validate` performs all remaining checks and
accumulates every failure: a size mismatch clears `SizeMatch` and `Valid`
but the checksum comparison (when a checksum is recorded) still runs and
its failure is also reported; `Valid` is the conjunction of the checks
performed, and each failed check contributes its error message. -/
theorem validate_accumulates_failures
    (v : Backend) (m : BackupMetadata) (bf : String) (sz : Int) (data : List Nat)
    (hbf : findDataFile (m.ID ++ ".meta.json") m.Files = bf) (hbfne : bf ≠ "")
    (hex : v.ExistsQ bf = Except.ok true) (hsz : v.Size bf = Except.ok sz)
    (hrd : m.Backup.Checksum ≠ "" → v.Read bf = Except.ok data) :
    ∃ r, (Validate v m).1 = Except.ok r ∧
      r.FileExists = true ∧
      r.SizeMatch = decide (sz = m.Backup.CompressedSize) ∧
      r.ChecksumOK = (if m.Backup.Checksum = "" then true
                      else decide (CalculateChecksum data = m.Backup.Checksum)) ∧
      r.Valid = (r.SizeMatch && r.ChecksumOK) ∧
      (m.Backup.Checksum ≠ "" → StorageOp.readFile bf ∈ (Validate v m).2) ∧
      (r.SizeMatch = false →
        ("size mismatch: expected " ++ toString m.Backup.CompressedSize ++
         ", got " ++ toString sz) ∈ r.Errors) ∧
      (r.ChecksumOK = false → "checksum mismatch" ∈ r.Errors) := by
  by_cases hck : m.Backup.Checksum = ""
  · rw [validate_eq_no_checksum v m bf sz hbf hbfne hex hsz hck]
    refine ⟨_, rfl, rfl, rfl, by simp [hck], by simp, fun h => absurd hck h, ?_, by simp⟩
    intro hsm
    have : ¬ sz = m.Backup.CompressedSize := by simpa using hsm
    simp [this]
  · rw [validate_eq_checksum v m bf sz data hbf hbfne hex hsz hck (hrd hck)]
    refine ⟨_, rfl, rfl, rfl, by simp [hck], rfl, fun _ => by simp, ?_, ?_⟩
    · intro hsm
      have : ¬ sz = m.Backup.CompressedSize := by simpa using hsm
      simp [this]
    · intro hco
      have : ¬ CalculateChecksum data = m.Backup.Checksum := by simpa using hco
      simp [this]

/-- **C5**: a record whose files list is empty, or lists only the metadata
entry, fails closed: invalid, with an explanatory error, without a single
storage call. -/
theorem validate_failsClosed_no_storage
    (v : Backend) (m : BackupMetadata)
    (hmeta : m.Files = [] ∨ ∀ f ∈ m.Files, f = m.ID ++ ".meta.json") :
    ∃ r, Validate v m = (Except.ok r, []) ∧ r.Valid = false ∧ r.Errors ≠ [] := by
  rcases hmeta with hnil | hall
  · refine ⟨⟨m.ID, false, false, false, false, ["no files listed in metadata"]⟩, ?_, rfl, by simp⟩
    unfold Validate
    simp [hnil]
  · by_cases hnil : m.Files = []
    · refine ⟨⟨m.ID, false, false, false, false, ["no files listed in metadata"]⟩, ?_, rfl, by simp⟩
      unfold Validate
      simp [hnil]
    · have hflen : m.Files.length ≠ 0 := by
        simpa [List.length_eq_zero] using hnil
      have hfind : findDataFile (m.ID ++ ".meta.json") m.Files = "" :=
        findDataFile_all_meta _ m.Files hall
      refine ⟨⟨m.ID, false, false, false, false, ["backup file not found in metadata"]⟩,
        ?_, rfl, by simp⟩
      unfold Validate
      simp [hflen, hfind]

/-- **C10**: when the canonical data file is missing, `Validate` reports
`FileExists = false`, `Valid = false`, and leaves `SizeMatch` and
`ChecksumOK` at `false` although those checks never ran (the trace stops
at the existence check) — whereas with an existing file and an empty
recorded checksum, the unperformed checksum check is reported as
`ChecksumOK = true`. -/
theorem missing_file_reports_unperformed_checks_false
    (v : Backend) (m : BackupMetadata) (bf : String) (sz : Int)
    (hbf : findDataFile (m.ID ++ ".meta.json") m.Files = bf) (hbfne : bf ≠ "") :
    (v.ExistsQ bf = Except.ok false →
      ∃ r, (Validate v m).1 = Except.ok r ∧ r.FileExists = false ∧ r.Valid = false ∧
        r.SizeMatch = false ∧ r.ChecksumOK = false ∧
        (Validate v m).2 = [StorageOp.existsCheck bf]) ∧
    (v.ExistsQ bf = Except.ok true → v.Size bf = Except.ok sz → m.Backup.Checksum = "" →
      ∃ r, (Validate v m).1 = Except.ok r ∧ r.ChecksumOK = true ∧
        (Validate v m).2 = [StorageOp.existsCheck bf, StorageOp.sizeCheck bf]) := by
  constructor
  · intro hex
    rw [validate_eq_missing v m bf hbf hbfne hex]
    exact ⟨_, rfl, rfl, rfl, rfl, rfl, rfl⟩
  · intro hex hsz hck
    rw [validate_eq_no_checksum v m bf sz hbf hbfne hex hsz hck]
    exact ⟨_, rfl, rfl, rfl⟩

/-- Witness for C4 at a concrete input: matching size, recorded checksum
`"nope"` differing from the stored bytes' hash — the size check passes,
the checksum check still runs, fails, and is reported. -/
theorem validate_accumulates_failures_witness :
    ∃ r, (Validate ⟨fun _ => Except.ok true, fun _ => Except.ok 3, fun _ => Except.ok [1, 2, 3]⟩
        ⟨"b", 0, ⟨3, "nope"⟩, ["b.dump", "b.meta.json"]⟩).1 = Except.ok r ∧
      r.FileExists = true ∧ r.SizeMatch = true ∧ r.ChecksumOK = false ∧ r.Valid = false ∧
      "checksum mismatch" ∈ r.Errors := by
  obtain ⟨r, h1, h2, h3, h4, h5, _, _, h8⟩ :=
    validate_accumulates_failures
      ⟨fun _ => Except.ok true, fun _ => Except.ok 3, fun _ => Except.ok [1, 2, 3]⟩
      ⟨"b", 0, ⟨3, "nope"⟩, ["b.dump", "b.meta.json"]⟩
      "b.dump" 3 [1, 2, 3] rfl (by decide) rfl rfl (fun _ => rfl)
  have h3' : r.SizeMatch = true := h3.trans (by decide)
  have h4' : r.ChecksumOK = false := h4.trans (by decide)
  exact ⟨r, h1, h2, h3', h4', by simp [h5, h3', h4'], h8 h4'⟩

/-- Witness for C5 at a concrete input: empty files list. -/
theorem validate_failsClosed_no_storage_witness :
    ∃ r, Validate ⟨fun _ => Except.ok true, fun _ => Except.ok 0, fun _ => Except.ok []⟩
        ⟨"b", 0, ⟨0, ""⟩, []⟩ = (Except.ok r, []) ∧ r.Valid = false ∧ r.Errors ≠ [] :=
  validate_failsClosed_no_storage _ _ (Or.inl rfl)

/-- Witness for C10 at concrete inputs: a missing data file on one backend,
and an existing file with no recorded checksum on another. -/
theorem missing_file_reports_unperformed_checks_false_witness :
    (∃ r, (Validate ⟨fun _ => Except.ok false, fun _ => Except.ok 0, fun _ => Except.ok []⟩
        ⟨"b", 0, ⟨0, ""⟩, ["b.dump", "b.meta.json"]⟩).1 = Except.ok r ∧
      r.FileExists = false ∧ r.Valid = false ∧ r.SizeMatch = false ∧ r.ChecksumOK = false ∧
      (Validate ⟨fun _ => Except.ok false, fun _ => Except.ok 0, fun _ => Except.ok []⟩
        ⟨"b", 0, ⟨0, ""⟩, ["b.dump", "b.meta.json"]⟩).2 = [StorageOp.existsCheck "b.dump"]) ∧
    ∃ r, (Validate ⟨fun _ => Except.ok true, fun _ => Except.ok 0, fun _ => Except.ok []⟩
        ⟨"b", 0, ⟨0, ""⟩, ["b.dump", "b.meta.json"]⟩).1 = Except.ok r ∧
      r.ChecksumOK = true ∧
      (Validate ⟨fun _ => Except.ok true, fun _ => Except.ok 0, fun _ => Except.ok []⟩
        ⟨"b", 0, ⟨0, ""⟩, ["b.dump", "b.meta.json"]⟩).2 =
        [StorageOp.existsCheck "b.dump", StorageOp.sizeCheck "b.dump"] :=
  ⟨(missing_file_reports_unperformed_checks_false
      ⟨fun _ => Except.ok false, fun _ => Except.ok 0, fun _ => Except.ok []⟩
      ⟨"b", 0, ⟨0, ""⟩, ["b.dump", "b.meta.json"]⟩ "b.dump" 0 rfl (by decide)).1 rfl,
   (missing_file_reports_unperformed_checks_false
      ⟨fun _ => Except.ok true, fun _ => Except.ok 0, fun _ => Except.ok []⟩
      ⟨"b", 0, ⟨0, ""⟩, ["b.dump", "b.meta.json"]⟩ "b.dump" 0 rfl (by decide)).2 rfl rfl rfl⟩

/-! ## Checksum format lemmas (claim C8) -/

theorem beBytes_length (k : Nat) : ∀ v : Nat, (beBytes k v).length = k := by
  induction k with
  | zero => intro v; rfl
  | succ k ih => intro v; rw [beBytes, List.length_append, ih]; simp

theorem sha256_length (msg : List Nat) : (sha256 msg).length = 32 := by
  unfold sha256
  simp [List.length_append, beBytes_length]

theorem hexPairs_length (bytes : List Nat) :
    ((bytes.map fun b => [hexDigitChar (b / 16), hexDigitChar (b % 16)]).flatten).length =
      2 * bytes.length := by
  induction bytes with
  | nil => rfl
  | cons b bs ih => simp [ih]; ring

theorem bytesToHex_length (bytes : List Nat) : (bytesToHex bytes).length = 2 * bytes.length := by
  show ((bytes.map fun b => [hexDigitChar (b / 16), hexDigitChar (b % 16)]).flatten).length = _
  exact hexPairs_length bytes

theorem getD_mem_or {α : Type} : ∀ (l : List α) (n : Nat) (d : α),
    l.getD n d ∈ l ∨ l.getD n d = d
  | [], n, d => Or.inr (by cases n <;> rfl)
  | a :: l, 0, d => Or.inl (by simp)
  | a :: l, n + 1, d => by
    rw [List.getD_cons_succ]
    rcases getD_mem_or l n d with h | h
    · exact Or.inl (List.mem_cons_of_mem _ h)
    · exact Or.inr h

theorem hexDigitChar_mem (n : Nat) : hexDigitChar n ∈ "0123456789abcdef".data := by
  unfold hexDigitChar
  rcases getD_mem_or ("0123456789abcdef".data) n '0' with h | h
  · exact h
  · rw [h]; decide

theorem bytesToHex_chars (bytes : List Nat) :
    ∀ c ∈ (bytesToHex bytes).data, c ∈ "0123456789abcdef".data := by
  intro c hc
  have hmem : c ∈ (bytes.map fun b => [hexDigitChar (b / 16), hexDigitChar (b % 16)]).flatten := hc
  rw [List.mem_flatten] at hmem
  obtain ⟨l, hl, hcl⟩ := hmem
  rw [List.mem_map] at hl
  obtain ⟨b, _, rfl⟩ := hl
  rcases (by simpa using hcl : c = hexDigitChar (b / 16) ∨ c = hexDigitChar (b % 16)) with rfl | rfl
  · exact hexDigitChar_mem _
  · exact hexDigitChar_mem _

theorem calculateChecksum_ne_empty (content : List Nat) : CalculateChecksum content ≠ "" := by
  unfold CalculateChecksum
  intro h
  have hlen := congrArg String.length h
  rw [String.length_append] at hlen
  have h7 : "sha256:".length = 7 := rfl
  have h0 : "".length = 0 := rfl
  rw [h7, h0, bytesToHex_length, sha256_length] at hlen
  omega

/-- **C8**: `CalculateChecksum` is `"sha256:"` followed by the 64
lowercase-hex digits of the content's SHA-256; a record whose stored
bytes match the recorded size and whose recorded checksum was computed
from exactly those bytes validates with all four flags true, while stored
bytes whose hash no longer matches the recorded checksum (e.g. after
flipping one byte, as the witness computes) yield `ChecksumOK = false`
and `Valid = false`. -/
theorem calculateChecksum_validator_roundtrip :
    (∀ content : List Nat,
       CalculateChecksum content = "sha256:" ++ bytesToHex (sha256 content) ∧
       (bytesToHex (sha256 content)).length = 64 ∧
       ∀ c ∈ (bytesToHex (sha256 content)).data, c ∈ "0123456789abcdef".data) ∧
    (∀ (v : Backend) (m : BackupMetadata) (bf : String) (content : List Nat),
       findDataFile (m.ID ++ ".meta.json") m.Files = bf → bf ≠ "" →
       v.ExistsQ bf = Except.ok true → v.Size bf = Except.ok m.Backup.CompressedSize →
       v.Read bf = Except.ok content →
       m.Backup.Checksum = CalculateChecksum content →
       ∃ r, (Validate v m).1 = Except.ok r ∧ r.Valid = true ∧ r.FileExists = true ∧
         r.SizeMatch = true ∧ r.ChecksumOK = true) ∧
    (∀ (v : Backend) (m : BackupMetadata) (bf : String) (content' : List Nat),
       findDataFile (m.ID ++ ".meta.json") m.Files = bf → bf ≠ "" →
       v.ExistsQ bf = Except.ok true → v.Size bf = Except.ok m.Backup.CompressedSize →
       v.Read bf = Except.ok content' →
       m.Backup.Checksum ≠ "" → m.Backup.Checksum ≠ CalculateChecksum content' →
       ∃ r, (Validate v m).1 = Except.ok r ∧ r.ChecksumOK = false ∧ r.Valid = false) := by
  refine ⟨fun content => ⟨rfl, ?_, bytesToHex_chars _⟩, ?_, ?_⟩
  · rw [bytesToHex_length, sha256_length]
  · intro v m bf content hbf hbfne hex hsz hrd hchk
    have hck : m.Backup.Checksum ≠ "" := by
      rw [hchk]; exact calculateChecksum_ne_empty content
    rw [validate_eq_checksum v m bf m.Backup.CompressedSize content hbf hbfne hex hsz hck hrd]
    exact ⟨_, rfl, by simp [hchk.symm], rfl, by simp, by simp [hchk.symm]⟩
  · intro v m bf content' hbf hbfne hex hsz hrd hck hne
    rw [validate_eq_checksum v m bf m.Backup.CompressedSize content' hbf hbfne hex hsz hck hrd]
    have hnot : ¬ (CalculateChecksum content' = m.Backup.Checksum) := fun h => hne h.symm
    exact ⟨_, rfl, by simp [hnot], by simp [hnot]⟩

set_option maxRecDepth 1000000 in
/-- Witness for C8 at a concrete input: content `[1, 2, 3]` with its true
checksum validates fully; flipping the last byte to `250` (same length)
changes the SHA-256 digest and fails the checksum check. -/
theorem calculateChecksum_validator_roundtrip_witness :
    (∃ r, (Validate ⟨fun _ => Except.ok true, fun _ => Except.ok 3, fun _ => Except.ok [1, 2, 3]⟩
        ⟨"b", 0, ⟨3, CalculateChecksum [1, 2, 3]⟩, ["b.dump", "b.meta.json"]⟩).1 = Except.ok r ∧
      r.Valid = true ∧ r.FileExists = true ∧ r.SizeMatch = true ∧ r.ChecksumOK = true) ∧
    ∃ r, (Validate ⟨fun _ => Except.ok true, fun _ => Except.ok 3, fun _ => Except.ok [1, 2, 250]⟩
        ⟨"b", 0, ⟨3, CalculateChecksum [1, 2, 3]⟩, ["b.dump", "b.meta.json"]⟩).1 = Except.ok r ∧
      r.ChecksumOK = false ∧ r.Valid = false :=
  ⟨calculateChecksum_validator_roundtrip.2.1
      ⟨fun _ => Except.ok true, fun _ => Except.ok 3, fun _ => Except.ok [1, 2, 3]⟩
      ⟨"b", 0, ⟨3, CalculateChecksum [1, 2, 3]⟩, ["b.dump", "b.meta.json"]⟩
      "b.dump" [1, 2, 3] rfl (by decide) rfl rfl rfl rfl,
   calculateChecksum_validator_roundtrip.2.2
      ⟨fun _ => Except.ok true, fun _ => Except.ok 3, fun _ => Except.ok [1, 2, 250]⟩
      ⟨"b", 0, ⟨3, CalculateChecksum [1, 2, 3]⟩, ["b.dump", "b.meta.json"]⟩
      "b.dump" [1, 2, 250] rfl (by decide) rfl rfl rfl (by decide) (by decide)⟩

/-- Counterexample to C9 as stated: for a timestamp whose location has a
nonzero zone offset (+01:00 here), `GenerateBackupID` renders the local
wall clock of the instant, not its UTC date and time. -/
theorem generateBackupID_not_utc_counterexample :
    GenerateBackupID ⟨0, 0, 3600⟩ = "backup_19700101_010000" ∧
    specUTCBackupID ⟨0, 0, 3600⟩ = "backup_19700101_000000" ∧
    GenerateBackupID ⟨0, 0, 3600⟩ ≠ specUTCBackupID ⟨0, 0, 3600⟩ := by decide

/-- **C9 (amended)**: `GenerateBackupID` deterministically renders the
timestamp's wall clock — the instant shifted by the value's own zone
offset — as `backup_YYYYMMDD_HHMMSS`.  For a zero-offset (UTC) value,
as `time.Now().UTC()` produces, this coincides with the UTC date and
time the spec describes; the sub-second part never enters the id, so any
two timestamps of the same location agreeing on whole seconds yield the
same id.  On the repository's own test vector, 2024-01-15T14:30:45Z maps
to `backup_20240115_143045`. -/
theorem generateBackupID_wall_clock (t u : GoTime) :
    GenerateBackupID t = "backup_" ++ formatYmdHms (t.sec + t.offset) ∧
    (t.offset = 0 → GenerateBackupID t = specUTCBackupID t) ∧
    (t.sec = u.sec → t.offset = u.offset → GenerateBackupID t = GenerateBackupID u) ∧
    GenerateBackupID ⟨1705329045, 0, 0⟩ = "backup_20240115_143045" := by
  refine ⟨rfl, ?_, ?_, by decide⟩
  · intro h0
    unfold GenerateBackupID specUTCBackupID
    rw [h0, add_zero]
  · intro hs ho
    unfold GenerateBackupID
    rw [hs, ho]

/-- Witness for the amended C9: a nanosecond-part difference does not
change the id, and at offset zero the id is the UTC rendering. -/
theorem generateBackupID_wall_clock_witness :
    GenerateBackupID ⟨1705329045, 5, 0⟩ = specUTCBackupID ⟨1705329045, 5, 0⟩ ∧
    GenerateBackupID ⟨1705329045, 5, 0⟩ = GenerateBackupID ⟨1705329045, 7, 0⟩ :=
  ⟨(generateBackupID_wall_clock ⟨1705329045, 5, 0⟩ ⟨1705329045, 7, 0⟩).2.1 rfl,
   (generateBackupID_wall_clock ⟨1705329045, 5, 0⟩ ⟨1705329045, 7, 0⟩).2.2.1 rfl rfl⟩

/-! ## Retry-wrapper lemmas (claims C6, C7) -/

/-- **C6**: with `maxAttempts = 3` and a live context, an operation failing
retryably twice then succeeding is invoked exactly 3 times and its result
is returned with no error; an operation returning a non-retryable error —
a cancellation/deadline error, or one whose message case-insensitively
contains one of the credential/permission/"does not exist" indicators —
is invoked exactly once regardless of `maxAttempts` (≥ 1) and that error
is returned immediately; and a cancellation that fires during the
inter-attempt wait is returned without any further invocation. -/
theorem withRetry_invocation_counts :
    (∀ (T : Type) (cfg : RetryConfig) (ctx : Ctx) (fn : Nat → Except GoError T)
       (e₁ e₂ : GoError) (t : T),
       cfg.MaxAttempts = 3 →
       (∀ n, ctx.doneAtCheck n = none) → (∀ n, ctx.doneDuringWait n = none) →
       fn 1 = Except.error e₁ → isRetryable e₁ = true →
       fn 2 = Except.error e₂ → isRetryable e₂ = true →
       fn 3 = Except.ok t →
       (WithRetry cfg ctx fn).value = some t ∧ (WithRetry cfg ctx fn).error = none ∧
         (WithRetry cfg ctx fn).calls = 3) ∧
    (∀ (T : Type) (cfg : RetryConfig) (ctx : Ctx) (fn : Nat → Except GoError T) (e : GoError),
       1 ≤ cfg.MaxAttempts →
       ctx.doneAtCheck 1 = none →
       fn 1 = Except.error e → isRetryable e = false →
       WithRetry cfg ctx fn = ⟨none, some e, 1, []⟩) ∧
    (∀ e : GoError, e.isCanceled = true ∨ e.isDeadlineExceeded = true → isRetryable e = false) ∧
    (∀ (e : GoError) (s : List Nat), s ∈ nonRetryableErrors → contains e.msg s = true →
       isRetryable e = false) ∧
    (∀ (T : Type) (cfg : RetryConfig) (ctx : Ctx) (fn : Nat → Except GoError T) (e ec : GoError),
       cfg.MaxAttempts = 3 →
       ctx.doneAtCheck 1 = none →
       fn 1 = Except.error e → isRetryable e = true →
       ctx.doneDuringWait 1 = some ec →
       WithRetry cfg ctx fn = ⟨none, some ec, 1, []⟩) := by
  refine ⟨?_, ?_, ?_, ?_, ?_⟩
  · intro T cfg ctx fn e₁ e₂ t hMA hd1 hd2 hf1 hr1 hf2 hr2 hf3
    unfold WithRetry
    rw [hMA]
    show (retryLoop cfg ctx fn 3 1 cfg.InitialWait none).value = some t ∧ _ ∧ _
    simp [retryLoop, hd1 1, hd1 2, hd1 3, hd2 1, hd2 2, hf1, hr1, hf2, hr2, hf3]
  · intro T cfg ctx fn e hMA hd1 hf1 hr1
    obtain ⟨k, hk⟩ : ∃ k, cfg.MaxAttempts.toNat = k + 1 :=
      ⟨cfg.MaxAttempts.toNat - 1, by omega⟩
    unfold WithRetry
    rw [hk]
    simp [retryLoop, hd1, hf1, hr1]
  · intro e h
    unfold isRetryable
    rcases h with h | h <;> simp [h]
  · intro e s hs hc
    unfold isRetryable
    have hany : nonRetryableErrors.any (fun x => contains e.msg x) = true :=
      List.any_eq_true.mpr ⟨s, hs, hc⟩
    by_cases hcd : (e.isCanceled || e.isDeadlineExceeded) = true <;> simp [hcd, hany]
  · intro T cfg ctx fn e ec hMA hd1 hf1 hr1 hw1
    unfold WithRetry
    rw [hMA]
    show retryLoop cfg ctx fn 3 1 cfg.InitialWait none = _
    simp [retryLoop, hd1, hf1, hr1, hw1]

/-- Witness for C6 at concrete inputs: the success-on-attempt-3, the
credential-error, and the cancelled-during-wait scenarios. -/
theorem withRetry_invocation_counts_witness :
    ((WithRetry ⟨3, 10, 100, 2⟩ liveCtx
        (fun n => if n < 3 then Except.error ⟨goBytes "temporary error", false, false⟩
                  else Except.ok (7 : Nat))).calls = 3) ∧
    (WithRetry ⟨5, 10, 100, 2⟩ liveCtx
        (fun _ => (Except.error ⟨goBytes "authentication failed", false, false⟩ :
          Except GoError Nat)) =
      ⟨none, some ⟨goBytes "authentication failed", false, false⟩, 1, []⟩) ∧
    (WithRetry ⟨3, 10, 100, 2⟩ ⟨fun _ => none, fun _ => some ⟨goBytes "context canceled", true, false⟩⟩
        (fun _ => (Except.error ⟨goBytes "connection refused", false, false⟩ :
          Except GoError Nat)) =
      ⟨none, some ⟨goBytes "context canceled", true, false⟩, 1, []⟩) :=
  ⟨(withRetry_invocation_counts.1 Nat ⟨3, 10, 100, 2⟩ liveCtx
      (fun n => if n < 3 then Except.error ⟨goBytes "temporary error", false, false⟩
                else Except.ok (7 : Nat))
      ⟨goBytes "temporary error", false, false⟩ ⟨goBytes "temporary error", false, false⟩ 7
      rfl (fun _ => rfl) (fun _ => rfl) rfl (by decide) rfl (by decide) rfl).2.2,
   withRetry_invocation_counts.2.1 Nat ⟨5, 10, 100, 2⟩ liveCtx _
      ⟨goBytes "authentication failed", false, false⟩ (by decide) rfl rfl (by decide),
   withRetry_invocation_counts.2.2.2.2 Nat ⟨3, 10, 100, 2⟩
      ⟨fun _ => none, fun _ => some ⟨goBytes "context canceled", true, false⟩⟩ _
      ⟨goBytes "connection refused", false, false⟩ ⟨goBytes "context canceled", true, false⟩
      rfl rfl rfl (by decide) rfl⟩

/-- When every attempt fails retryably and the context stays live, the loop
runs through all its fuel: it returns the last error, one call per unit
of fuel, and sleeps the `capScale` chain of waits. -/
theorem retryLoop_allFail {T : Type} (cfg : RetryConfig) (ctx : Ctx)
    (fn : Nat → Except GoError T) (e : Nat → GoError)
    (hd1 : ∀ n, ctx.doneAtCheck n = none) (hd2 : ∀ n, ctx.doneDuringWait n = none)
    (hf : ∀ n, fn n = Except.error (e n)) (hr : ∀ n, isRetryable (e n) = true) :
    ∀ (fuel attempt : Nat) (wait : Int) (le : Option GoError), 0 < fuel →
      retryLoop cfg ctx fn fuel attempt wait le =
        ⟨none, some (e (attempt + fuel - 1)), fuel, waitsFrom cfg wait (fuel - 1)⟩ := by
  intro fuel
  induction fuel with
  | zero => intro attempt wait le h; omega
  | succ f ih =>
    intro attempt wait le _
    rw [retryLoop]
    rw [hd1 attempt, hf attempt]
    simp only [hr attempt, if_true]
    by_cases hf0 : f = 0
    · subst hf0
      simp [waitsFrom]
    · have hfpos : 0 < f := Nat.pos_of_ne_zero hf0
      simp only [hf0, if_false, hd2 attempt]
      rw [ih (attempt + 1) _ (some (e attempt)) hfpos]
      obtain ⟨g, hg⟩ : ∃ g, f = g + 1 := ⟨f - 1, by omega⟩
      subst hg
      have hidx : attempt + 1 + (g + 1) - 1 = attempt + (g + 1 + 1) - 1 := by omega
      simp [waitsFrom, capScale, scaleWait, hidx]

/-- **C7 (amended)**: when every invocation fails with a retryable error
and the context is never cancelled, `WithRetry` invokes the operation
exactly `maxAttempts` times and returns the last attempt's error; the
waits slept between attempts follow `w₁ = initialWait` and
`w_{n+1} = min(⌊wₙ · multiplier⌋, maxWait)` — in particular the first
wait is `initialWait` itself, *not* capped at `maxWait`. -/
theorem withRetry_exhausts_attempts
    (T : Type) (cfg : RetryConfig) (ctx : Ctx) (fn : Nat → Except GoError T)
    (e : Nat → GoError)
    (hMA : 1 ≤ cfg.MaxAttempts)
    (hd1 : ∀ n, ctx.doneAtCheck n = none) (hd2 : ∀ n, ctx.doneDuringWait n = none)
    (hf : ∀ n, fn n = Except.error (e n)) (hr : ∀ n, isRetryable (e n) = true) :
    WithRetry cfg ctx fn =
      ⟨none, some (e cfg.MaxAttempts.toNat), cfg.MaxAttempts.toNat,
       waitsFrom cfg cfg.InitialWait (cfg.MaxAttempts.toNat - 1)⟩ := by
  unfold WithRetry
  rw [retryLoop_allFail cfg ctx fn e hd1 hd2 hf hr cfg.MaxAttempts.toNat 1 cfg.InitialWait none
    (by omega)]
  have hidx : 1 + cfg.MaxAttempts.toNat - 1 = cfg.MaxAttempts.toNat := by omega
  rw [hidx]

/-- Counterexample to C7 as stated: with `maxAttempts = 2`,
`initialWait = 50`, `maxWait = 30` (nanoseconds), and an always-failing
retryable operation, the single wait slept between attempts 1 and 2 is
the uncapped `initialWait = 50`, not the claimed
`initialWait · multiplier⁰` capped at `maxWait`, which is `30`. -/
theorem withRetry_first_wait_uncapped_counterexample :
    (WithRetry ⟨2, 50, 30, 2⟩ liveCtx
        (fun _ => (Except.error ⟨goBytes "connection refused", false, false⟩ :
          Except GoError Nat))).waits = [50] ∧
    (if (50 : Int) > 30 then (30 : Int) else 50) = 30 ∧ (50 : Int) ≠ 30 := by decide

/-- Witness for the amended C7: `maxAttempts = 3`, `initialWait = 10`,
`maxWait = 25`, multiplier 2 — three calls, last error returned, waits
`[10, 20]`; and with `initialWait = 50 > maxWait = 30`, the first wait
stays 50 while the second is capped to 30. -/
theorem withRetry_exhausts_attempts_witness :
    (WithRetry ⟨3, 10, 25, 2⟩ liveCtx
        (fun _ => (Except.error ⟨goBytes "connection refused", false, false⟩ :
          Except GoError Nat))) =
      ⟨none, some ⟨goBytes "connection refused", false, false⟩, 3, [10, 20]⟩ ∧
    (WithRetry ⟨3, 50, 30, 2⟩ liveCtx
        (fun _ => (Except.error ⟨goBytes "connection refused", false, false⟩ :
          Except GoError Nat))) =
      ⟨none, some ⟨goBytes "connection refused", false, false⟩, 3, [50, 30]⟩ := by
  have hr : isRetryable ⟨goBytes "connection refused", false, false⟩ = true := by decide
  constructor
  · rw [withRetry_exhausts_attempts Nat ⟨3, 10, 25, 2⟩ liveCtx
      (fun _ => (Except.error ⟨goBytes "connection refused", false, false⟩ :
        Except GoError Nat))
      (fun _ => ⟨goBytes "connection refused", false, false⟩) (by decide)
      (fun _ => rfl) (fun _ => rfl) (fun _ => rfl) (fun _ => hr)]
    decide
  · rw [withRetry_exhausts_attempts Nat ⟨3, 50, 30, 2⟩ liveCtx
      (fun _ => (Except.error ⟨goBytes "connection refused", false, false⟩ :
        Except GoError Nat))
      (fun _ => ⟨goBytes "connection refused", false, false⟩) (by decide)
      (fun _ => rfl) (fun _ => rfl) (fun _ => rfl) (fun _ => hr)]
    decide
